import Mathlib

/-!
Verification of the Turkish conversational-router chatbot.

The development shallowly embeds the repository's Python modules
(`api_web_chatbot.py`, `rag_service.py`, `emotion_system.py`,
`statistic_system.py`, `animal_system.py`) as executable Lean functions over
`List Char`.  External collaborators (the LLM backends, the JSON library of
the standard Python distribution, the HTTP animal APIs, the vector store and
the summarizer pipeline) are passed in as explicit oracle parameters; the
repository's own logic (routing, parsing, sanitization, chunking, counters,
statistics) is translated directly from the source.

Python's text primitives are modelled character-wise over the alphabet that
actually occurs in the repository (ASCII plus the Turkish letters): this is
what `str.lower`, `str.upper`, `str.strip`, `html.escape` and the regular
expressions of the denylists compute on every input in scope.
-/

set_option maxHeartbeats 1000000
set_option maxRecDepth 8000

abbrev Chars := List Char

/-- Whitespace as recognised by Python's `str.strip` / `\s` for the ASCII range. -/
def pyIsSpace (c : Char) : Bool :=
  c = ' ' || c = '\t' || c = '\n' || c = '\r' || c = '\x0b' || c = '\x0c'

/-- The Turkish letters appearing in the repository's vocabulary. -/
def turkishLower (c : Char) : Bool :=
  c = 'ç' || c = 'ğ' || c = 'ı' || c = 'ö' || c = 'ş' || c = 'ü' || c = 'â' || c = 'î' || c = 'û'

def turkishUpper (c : Char) : Bool :=
  c = 'Ç' || c = 'Ğ' || c = 'İ' || c = 'Ö' || c = 'Ş' || c = 'Ü' || c = 'Â' || c = 'Î' || c = 'Û'

/-- `str.lower`, character-wise, on ASCII and Turkish letters. -/
def pyLowerChar (c : Char) : Char :=
  if 65 ≤ c.toNat ∧ c.toNat ≤ 90 then Char.ofNat (c.toNat + 32)
  else if c = 'Ç' then 'ç' else if c = 'Ğ' then 'ğ' else if c = 'İ' then 'i'
  else if c = 'Ö' then 'ö' else if c = 'Ş' then 'ş' else if c = 'Ü' then 'ü'
  else if c = 'Â' then 'â' else if c = 'Î' then 'î' else if c = 'Û' then 'û'
  else c

/-- `str.upper`, character-wise, on ASCII and Turkish letters
(`ı` uppercases to ASCII `I`, as in Python). -/
def pyUpperChar (c : Char) : Char :=
  if 97 ≤ c.toNat ∧ c.toNat ≤ 122 then Char.ofNat (c.toNat - 32)
  else if c = 'ç' then 'Ç' else if c = 'ğ' then 'Ğ' else if c = 'ı' then 'I'
  else if c = 'ö' then 'Ö' else if c = 'ş' then 'Ş' else if c = 'ü' then 'Ü'
  else if c = 'â' then 'Â' else if c = 'î' then 'Î' else if c = 'û' then 'Û'
  else c

def pyLower (t : Chars) : Chars := t.map pyLowerChar

def pyUpper (t : Chars) : Chars := t.map pyUpperChar

/-- A word character for the regex `\w`, over the alphabet in scope. -/
def pyIsWord (c : Char) : Bool :=
  c.isAlphanum || c = '_' || turkishLower c || turkishUpper c

/-- Python `str.strip()`. -/
def pyStrip (t : Chars) : Chars :=
  ((t.dropWhile pyIsSpace).reverse.dropWhile pyIsSpace).reverse

/-- `html.escape(text, quote=True)`: the per-character replacement table. -/
def escChar (c : Char) : Chars :=
  if c = '&' then "&amp;".data
  else if c = '<' then "&lt;".data
  else if c = '>' then "&gt;".data
  else if c = '"' then "&quot;".data
  else if c = '\'' then "&#x27;".data
  else [c]

def htmlEscape (t : Chars) : Chars := (t.map escChar).flatten

/-- `re.sub(r'\s+', ' ', text)`, as a state machine: the flag records whether
the scanner is inside a whitespace run whose single `' '` was already emitted. -/
def collapseWsGo : Bool → Chars → Chars
  | _, [] => []
  | inRun, c :: r =>
    if pyIsSpace c then
      if inRun then collapseWsGo true r else ' ' :: collapseWsGo true r
    else c :: collapseWsGo false r

def collapseWs (t : Chars) : Chars := collapseWsGo false t

/-- Boolean contiguous-substring test (`p in t` / a literal `re.search`). -/
def infixBool (p t : Chars) : Bool := t.tails.any (fun s => p.isPrefixOf s)

/-- Consume a literal at the head of the input. -/
def eatLit (p t : Chars) : Option Chars :=
  if p.isPrefixOf t then some (t.drop p.length) else none

/-- Does the regex `<NAME[^>]*>` match starting at this position? -/
def matchTagAt (name : Chars) (s : Chars) : Bool :=
  match eatLit ('<' :: name) s with
  | some rest => rest.any (fun c => c = '>')
  | none => false

/-- `re.search('<NAME[^>]*>', t)`. -/
def matchTag (name : Chars) (t : Chars) : Bool := t.tails.any (matchTagAt name)

/-- Scan for a literal `</script>` reachable without crossing a newline
(the `.*?</script>` tail of the script-tag regex; `.` does not match `\n`). -/
def searchScriptClose : Chars → Bool
  | [] => false
  | c :: r =>
    if "</script>".data.isPrefixOf (c :: r) then true
    else if c = '\n' then false
    else searchScriptClose r

/-- Does `<script[^>]*>.*?</script>` match starting at this position? -/
def matchScriptAt (s : Chars) : Bool :=
  match eatLit "<script".data s with
  | some rest =>
    match rest.dropWhile (fun c => c != '>') with
    | '>' :: after => searchScriptClose after
    | _ => false
  | none => false

def matchScriptTag (t : Chars) : Bool := t.tails.any matchScriptAt

/-- Does `on\w+\s*=` match starting at this position? -/
def matchOnEventAt : Chars → Bool
  | c1 :: c2 :: rest =>
    c1 = 'o' && c2 = 'n' &&
      (let w := rest.takeWhile pyIsWord
       let r1 := (rest.dropWhile pyIsWord).dropWhile pyIsSpace
       !w.isEmpty && (match r1 with
                      | '=' :: _ => true
                      | _ => false))
  | _ => false

def matchOnEvent (t : Chars) : Bool := t.tails.any matchOnEventAt

def matchLit (p : Chars) (t : Chars) : Bool := infixBool p t

/-- `DANGEROUS_PATTERNS` of `api_web_chatbot.py`, as case-insensitive matchers
to be applied to the lowercased text (modelling `re.IGNORECASE`). -/
def DANGEROUS_PATTERNS : List (Chars → Bool) :=
  [ matchScriptTag,
    matchLit "javascript:".data,
    matchLit "data:text/html".data,
    matchLit "vbscript:".data,
    matchOnEvent,
    matchTag "iframe".data,
    matchTag "object".data,
    matchTag "embed".data,
    matchTag "link".data,
    matchTag "meta".data ]

/-- The 8-pattern denylists of `animal_system.py`, `emotion_system.py` and
`rag_service.py` (no `<link>`/`<meta>` entries). -/
def DANGEROUS_PATTERNS8 : List (Chars → Bool) :=
  [ matchScriptTag,
    matchLit "javascript:".data,
    matchLit "data:text/html".data,
    matchLit "vbscript:".data,
    matchOnEvent,
    matchTag "iframe".data,
    matchTag "object".data,
    matchTag "embed".data ]

def filteredSentinel : Chars := "[Güvenlik nedeniyle mesaj filtrelendi]".data

/-- The shared sanitizer shape: `_sanitize_input` / `_sanitize_animal_input` /
`_sanitize_emotion_input` / `_sanitize_rag_query` (they differ only in the
pattern list and, for the RAG variant, the sentinel text). -/
def sanitizeWith (patterns : List (Chars → Bool)) (sentinel : Chars) (text : Chars) : Chars :=
  if text.isEmpty then []
  else
    let esc := htmlEscape text
    if patterns.any (fun p => p (pyLower esc)) then sentinel
    else pyStrip (collapseWs esc)

/-- `api_web_chatbot._sanitize_input`. -/
def sanitizeInput (text : Chars) : Chars :=
  sanitizeWith DANGEROUS_PATTERNS filteredSentinel text

/-- `animal_system._sanitize_animal_input` (= emotion variant). -/
def sanitizeAnimalInput (text : Chars) : Chars :=
  sanitizeWith DANGEROUS_PATTERNS8 filteredSentinel text

/-- `FlowDecisionParser.parse` of `api_web_chatbot.py`. -/
def validFlows : List Chars :=
  ["ANIMAL".data, "RAG".data, "EMOTION".data, "STATS".data, "HELP".data]

def flowDecisionParse (text : Chars) : Chars :=
  let t := pyUpper (pyStrip text)
  (validFlows.find? (fun f => infixBool f t)).getD "HELP".data

/-- Modelled from the spec's words for comparison ("scans returned text for
presence of each of the known flow labels in priority/list order and returns
the first match; absence of any known label resolves to HELP"): the first
label case-insensitively occurring as a substring of the (untrimmed) text. -/
def flowDecisionSpec (text : Chars) : Chars :=
  (validFlows.filter (fun f => infixBool f (pyUpper text))).headD "HELP".data

/-! ### Generic list lemmas -/

theorem find?_eq_head?_filter {α : Type} (p : α → Bool) (l : List α) :
    l.find? p = (l.filter p).head? := by
  induction l with
  | nil => rfl
  | cons c r ih =>
    cases h : p c
    · rw [List.find?_cons_of_neg _ (by simp [h]), List.filter_cons_of_neg (by simp [h]), ih]
    · rw [List.find?_cons_of_pos _ h, List.filter_cons_of_pos h, List.head?_cons]

theorem infixBool_iff (p t : Chars) : infixBool p t = true ↔ p <:+: t := by
  unfold infixBool
  rw [List.any_eq_true]
  constructor
  · rintro ⟨s, hs, hp⟩
    exact ((List.isPrefixOf_iff_prefix).mp hp).isInfix.trans ((List.mem_tails _ _).mp hs).isInfix
  · rintro ⟨a, b, hab⟩
    refine ⟨p ++ b, (List.mem_tails _ _).mpr ⟨a, by rw [← hab]; simp⟩,
      List.isPrefixOf_iff_prefix.mpr ⟨b, rfl⟩⟩

theorem infix_dropWhile_of_not {p : Char → Bool} {k t : Chars}
    (hk : k ≠ []) (hnp : ∀ c ∈ k, p c = false) (h : k <:+: t) :
    k <:+: t.dropWhile p := by
  induction t with
  | nil =>
    rw [List.infix_nil] at h
    exact absurd h hk
  | cons c r ih =>
    cases hc : p c
    · rwa [List.dropWhile_cons_of_neg (by simp [hc])]
    · rw [List.dropWhile_cons_of_pos (by simp [hc])]
      rcases List.infix_cons_iff.mp h with hpre | hinf
      · cases k with
        | nil => exact absurd rfl hk
        | cons k0 ks =>
          rcases List.cons_prefix_cons.mp hpre with ⟨rfl, _⟩
          have := hnp k0 (by simp)
          rw [this] at hc
          exact absurd hc (by simp)
      · exact ih hinf

theorem infix_of_infix_dropWhile {p : Char → Bool} {k t : Chars}
    (h : k <:+: t.dropWhile p) : k <:+: t :=
  h.trans (List.dropWhile_suffix p).isInfix

theorem pyStrip_infix_self (t : Chars) : pyStrip t <:+: t := by
  unfold pyStrip
  have h1 : (t.dropWhile pyIsSpace) <:+ t := List.dropWhile_suffix pyIsSpace
  have h2 : ((t.dropWhile pyIsSpace).reverse.dropWhile pyIsSpace).reverse <+:
      (t.dropWhile pyIsSpace) := by
    rw [← List.reverse_suffix]
    simpa using List.dropWhile_suffix (l := (t.dropWhile pyIsSpace).reverse) pyIsSpace
  exact h2.isInfix.trans h1.isInfix

theorem infix_pyStrip_iff {k t : Chars}
    (hk : k ≠ []) (hnp : ∀ c ∈ k, pyIsSpace c = false) :
    k <:+: pyStrip t ↔ k <:+: t := by
  constructor
  · intro h
    exact h.trans (pyStrip_infix_self t)
  · intro h
    unfold pyStrip
    have h1 : k <:+: t.dropWhile pyIsSpace := infix_dropWhile_of_not hk hnp h
    have h2 : k.reverse <:+: (t.dropWhile pyIsSpace).reverse := by
      exact (List.reverse_infix).mpr h1
    have h3 : k.reverse <:+: ((t.dropWhile pyIsSpace).reverse.dropWhile pyIsSpace) := by
      refine infix_dropWhile_of_not ?_ ?_ h2
      · simpa using hk
      · intro c hc
        exact hnp c (List.mem_reverse.mp hc)
    simpa using (List.reverse_infix).mpr h3

/-! ### Character-level facts -/

theorem char_toNat_ofNat (n : Nat) (h : n < 0xd800) : (Char.ofNat n).toNat = n := by
  simp [Char.ofNat, Char.ofNatAux, Char.toNat, Nat.isValidChar, h, UInt32.toNat]

theorem char_eq_of_toNat {a b : Char} (h : a.toNat = b.toNat) : a = b := by
  apply Char.eq_of_val_eq
  apply UInt32.eq_of_toBitVec_eq
  exact BitVec.eq_of_toNat_eq h

theorem pyIsSpace_false_of_gt (c : Char) (h : 32 < c.toNat) : pyIsSpace c = false := by
  have hs : ∀ d : Char, d.toNat ≤ 32 → c ≠ d := by
    intro d hd e
    subst e
    omega
  simp [pyIsSpace, hs ' ' (by decide), hs '\t' (by decide), hs '\n' (by decide),
    hs '\r' (by decide), hs '\x0b' (by decide), hs '\x0c' (by decide)]

theorem pyIsSpace_pyUpperChar (c : Char) : pyIsSpace (pyUpperChar c) = pyIsSpace c := by
  unfold pyUpperChar
  split
  · next h =>
    have h1 : (Char.ofNat (c.toNat - 32)).toNat = c.toNat - 32 := char_toNat_ofNat _ (by omega)
    rw [pyIsSpace_false_of_gt (Char.ofNat (c.toNat - 32)) (by rw [h1]; omega),
      pyIsSpace_false_of_gt c (by omega)]
  · repeat' split
    all_goals first
      | rfl
      | (rename_i h; subst h; decide)

theorem pyIsSpace_pyLowerChar (c : Char) : pyIsSpace (pyLowerChar c) = pyIsSpace c := by
  unfold pyLowerChar
  split
  · next h =>
    have h1 : (Char.ofNat (c.toNat + 32)).toNat = c.toNat + 32 := char_toNat_ofNat _ (by omega)
    rw [pyIsSpace_false_of_gt (Char.ofNat (c.toNat + 32)) (by rw [h1]; omega),
      pyIsSpace_false_of_gt c (by omega)]
  · repeat' split
    all_goals first
      | rfl
      | (rename_i h; subst h; decide)

/-! ### Commuting character maps with strip / collapse -/

theorem map_dropWhile_comm (f : Char → Char) (hf : ∀ c, pyIsSpace (f c) = pyIsSpace c)
    (l : Chars) : (l.dropWhile pyIsSpace).map f = (l.map f).dropWhile pyIsSpace := by
  rw [List.dropWhile_map]
  have hpf : (pyIsSpace ∘ f) = pyIsSpace := funext hf
  rw [hpf]

theorem map_pyStrip (f : Char → Char) (hf : ∀ c, pyIsSpace (f c) = pyIsSpace c)
    (t : Chars) : (pyStrip t).map f = pyStrip (t.map f) := by
  unfold pyStrip
  rw [List.map_reverse, map_dropWhile_comm f hf, List.map_reverse, map_dropWhile_comm f hf]

theorem map_collapseWsGo (f : Char → Char) (hf : ∀ c, pyIsSpace (f c) = pyIsSpace c)
    (hsp : f ' ' = ' ') (t : Chars) :
    ∀ b, (collapseWsGo b t).map f = collapseWsGo b (t.map f) := by
  induction t with
  | nil => intro b; rfl
  | cons c r ih =>
    intro b
    cases hc : pyIsSpace c
    · simp only [collapseWsGo, List.map_cons, hc, hf c, Bool.false_eq_true, if_false, ih]
    · cases b <;>
        simp only [collapseWsGo, List.map_cons, hc, hf c, if_true, Bool.false_eq_true,
          if_false, hsp, ih]

theorem map_collapseWs (f : Char → Char) (hf : ∀ c, pyIsSpace (f c) = pyIsSpace c)
    (hsp : f ' ' = ' ') (t : Chars) : (collapseWs t).map f = collapseWs (t.map f) :=
  map_collapseWsGo f hf hsp t false

/-! ### C2: the flow-decision parser -/

theorem head?_getD_eq_headD {α : Type} (l : List α) (d : α) : l.head?.getD d = l.headD d := by
  cases l <;> rfl

theorem flow_label_props :
    ∀ f ∈ validFlows, f ≠ [] ∧ ∀ c ∈ f, pyIsSpace c = false := by decide

/-- C2: for every classification output text, the parser returns the first
label among ANIMAL, RAG, EMOTION, STATS, HELP (in that list order) occurring
case-insensitively as a substring of the text (HELP when none occurs), and
the concrete text of end-to-end scenario 4 parses to ANIMAL. -/
theorem C2_flow_decision_parse :
    (∀ text : Chars, flowDecisionParse text = flowDecisionSpec text) ∧
    flowDecisionParse "Bu konuda ANIMAL akışını seçiyorum".data = "ANIMAL".data := by
  constructor
  · intro text
    simp only [flowDecisionParse, flowDecisionSpec]
    rw [find?_eq_head?_filter, head?_getD_eq_headD]
    have hcomm : pyUpper (pyStrip text) = pyStrip (pyUpper text) :=
      map_pyStrip pyUpperChar pyIsSpace_pyUpperChar text
    rw [hcomm]
    have hfilter : validFlows.filter (fun f => infixBool f (pyStrip (pyUpper text)))
        = validFlows.filter (fun f => infixBool f (pyUpper text)) := by
      apply List.filter_congr
      intro f hf
      obtain ⟨hne, hsp⟩ := flow_label_props f hf
      rw [Bool.eq_iff_iff, infixBool_iff, infixBool_iff]
      exact infix_pyStrip_iff hne hsp
    rw [hfilter]
  · decide


/-! ### `RagService._chunk_text` and C3 -/

/-- The `while start < n` loop of `RagService._chunk_text`. -/
def chunkLoop (text : Chars) (size overlap : Nat) (start : Nat) : List Chars :=
  if h : start < text.length then
    let e := min text.length (start + size)
    let c := (text.drop start).take (e - start)
    if e = text.length then [c]
    else c :: chunkLoop text size overlap (max (e - overlap) (start + 1))
  else []
termination_by text.length - start
decreasing_by
  omega

/-- `RagService._chunk_text` (default `chunk_size=900`, `chunk_overlap=150`):
strip, return `[]` on empty, else run the sliding-window loop from 0. -/
def chunkText (text : Chars) (size : Nat := 900) (overlap : Nat := 150) : List Chars :=
  let t := pyStrip text
  if t.isEmpty then [] else chunkLoop t size overlap 0

theorem chunkLoop_stop (text : Chars) (size overlap start : Nat)
    (h : ¬ start < text.length) : chunkLoop text size overlap start = [] := by
  rw [chunkLoop.eq_def]
  simp [h]

theorem chunkLoop_last (text : Chars) (size overlap start : Nat)
    (h : start < text.length) (h2 : min text.length (start + size) = text.length) :
    chunkLoop text size overlap start =
      [(text.drop start).take (min text.length (start + size) - start)] := by
  rw [chunkLoop.eq_def]
  simp only [h, dif_pos, h2, if_pos]

theorem chunkLoop_step (text : Chars) (size overlap start : Nat)
    (h : start < text.length) (h2 : ¬ min text.length (start + size) = text.length) :
    chunkLoop text size overlap start =
      (text.drop start).take (min text.length (start + size) - start) ::
        chunkLoop text size overlap (max (min text.length (start + size) - overlap) (start + 1)) := by
  rw [chunkLoop.eq_def]
  simp only [h, dif_pos, h2, if_false]

theorem chunkLoop_windows (t : Chars) (start : Nat) :
    chunkLoop t 900 150 start =
      (List.range (chunkLoop t 900 150 start).length).map
        (fun i => (t.drop (start + 750 * i)).take 900) := by
  generalize hm : t.length - start = m
  induction m using Nat.strong_induction_on generalizing start with
  | _ m ih =>
    subst hm
    by_cases h : start < t.length
    · by_cases h2 : min t.length (start + 900) = t.length
      · rw [chunkLoop_last t 900 150 start h h2]
        have hlen : (t.drop start).length = t.length - start := List.length_drop start t
        have ht1 : (t.drop start).take (min t.length (start + 900) - start) = t.drop start := by
          apply List.take_of_length_le
          omega
        have ht2 : (t.drop start).take 900 = t.drop start := by
          apply List.take_of_length_le
          omega
        rw [ht1]
        have hr1 : List.range 1 = [0] := rfl
        simp [hr1, ht2]
      · have hmin : min t.length (start + 900) = start + 900 := by omega
        have hstep : start + 900 < t.length := by omega
        rw [chunkLoop_step t 900 150 start h h2, hmin]
        have hmax : max (start + 900 - 150) (start + 1) = start + 750 := by omega
        rw [hmax]
        have harg : start + 900 - start = 900 := by omega
        rw [harg]
        have ihs := ih (t.length - (start + 750)) (by omega) (start + 750) rfl
        simp only [List.length_cons]
        rw [List.range_succ_eq_map, List.map_cons, List.map_map]
        congr 1
        conv_lhs => rw [ihs]
        congr 1
        funext i
        simp only [Function.comp_apply]
        congr 2
        omega
    · rw [chunkLoop_stop t 900 150 start h]
      rfl

theorem chunkLoop_length (t : Chars) (start : Nat) (h : start < t.length) :
    (chunkLoop t 900 150 start).length = 1 + (t.length - start - 151) / 750 := by
  generalize hm : t.length - start = m
  induction m using Nat.strong_induction_on generalizing start with
  | _ m ih =>
    subst hm
    by_cases h2 : min t.length (start + 900) = t.length
    · rw [chunkLoop_last t 900 150 start h h2]
      have hlt : t.length - start - 151 < 750 := by omega
      rw [Nat.div_eq_of_lt hlt]
      rfl
    · have hmin : min t.length (start + 900) = start + 900 := by omega
      have hstep : start + 900 < t.length := by omega
      rw [chunkLoop_step t 900 150 start h h2, hmin]
      have hmax : max (start + 900 - 150) (start + 1) = start + 750 := by omega
      rw [hmax]
      have ihs := ih (t.length - (start + 750)) (by omega) (start + 750) (by omega) rfl
      simp only [List.length_cons, ihs]
      have ha : t.length - start - 151 = t.length - (start + 750) - 151 + 750 := by omega
      rw [ha, Nat.add_div_right _ (by omega : 0 < 750)]
      omega

theorem chunkLoop_drop_flatten (t : Chars) (start : Nat) :
    ((chunkLoop t 900 150 start).map (fun c => c.drop 150)).flatten = t.drop (start + 150) := by
  generalize hm : t.length - start = m
  induction m using Nat.strong_induction_on generalizing start with
  | _ m ih =>
    subst hm
    by_cases h : start < t.length
    · by_cases h2 : min t.length (start + 900) = t.length
      · rw [chunkLoop_last t 900 150 start h h2]
        have hlen : (t.drop start).length = t.length - start := List.length_drop start t
        have htake : (t.drop start).take (min t.length (start + 900) - start) = t.drop start := by
          apply List.take_of_length_le
          omega
        rw [htake]
        simp only [List.map_cons, List.map_nil, List.flatten_cons, List.flatten_nil,
          List.append_nil]
        rw [List.drop_drop]
      · have hmin : min t.length (start + 900) = start + 900 := by omega
        rw [chunkLoop_step t 900 150 start h h2, hmin]
        have hmax : max (start + 900 - 150) (start + 1) = start + 750 := by omega
        rw [hmax]
        have harg : start + 900 - start = 900 := by omega
        rw [harg]
        have ihs := ih (t.length - (start + 750)) (by omega) (start + 750) rfl
        simp only [List.map_cons, List.flatten_cons, ihs]
        rw [List.drop_take, List.drop_drop]
        have e3 : (900 : Nat) - 150 = 750 := by omega
        rw [e3]
        have hx : List.drop (start + 750 + 150) t = List.drop 750 (List.drop (start + 150) t) := by
          rw [List.drop_drop]
        rw [hx]
        exact List.take_append_drop 750 (t.drop (start + 150))
    · rw [chunkLoop_stop t 900 150 start h]
      have hle : t.length ≤ start + 150 := by omega
      rw [List.drop_eq_nil_of_le hle]
      rfl

/-- Concatenating the chunk spans minus the 150-character overlaps: the head
chunk followed by every later chunk with its first 150 characters removed. -/
def chunkReassemble (chunks : List Chars) : Chars :=
  match chunks with
  | [] => []
  | c :: cs => c ++ (cs.map (fun x => x.drop 150)).flatten

theorem chunkText_reconstructs (text : Chars) :
    chunkReassemble (chunkText text) = pyStrip text := by
  unfold chunkText
  by_cases he : (pyStrip text).isEmpty
  · simp only [he, if_true]
    rw [List.isEmpty_iff] at he
    rw [he]
    rfl
  · simp only [he, Bool.false_eq_true, if_false]
    have hne : pyStrip text ≠ [] := fun hnil => he (by simp [hnil])
    have hlen : 0 < (pyStrip text).length := List.length_pos.mpr hne
    set t := pyStrip text with ht
    by_cases h2 : min t.length (0 + 900) = t.length
    · rw [chunkLoop_last t 900 150 0 hlen h2]
      have hfull : (t.drop 0).take (min t.length (0 + 900) - 0) = t := by
        rw [List.drop_zero]
        apply List.take_of_length_le
        omega
      rw [hfull]
      simp [chunkReassemble]
    · rw [chunkLoop_step t 900 150 0 hlen h2]
      have hmin : min t.length (0 + 900) = 900 := by omega
      rw [hmin]
      have hmax : max (900 - 150) (0 + 1) = 750 := by omega
      rw [hmax]
      simp only [chunkReassemble, List.drop_zero, Nat.sub_zero]
      rw [chunkLoop_drop_flatten t 750]
      have e : (750 : Nat) + 150 = 900 := by omega
      rw [e]
      exact List.take_append_drop 900 t

theorem chunk_count_formula (n : Nat) (h : 0 < n) :
    1 + (n - 151) / 750 = max 1 ((n - 150 + 749) / 750) := by
  by_cases hle : n ≤ 150
  · have e1 : n - 151 = 0 := by omega
    have e2 : n - 150 + 749 = 749 := by omega
    rw [e1, e2, Nat.div_eq_of_lt (by omega)]
    simp
  · have e2 : n - 150 + 749 = (n - 151) + 750 := by omega
    rw [e2, Nat.add_div_right _ (by omega : 0 < 750)]
    omega

/-- C3 (amended): chunking with size 900 / overlap 150 is a total function;
the produced chunks are exactly the sliding windows of the whitespace-stripped
text advancing by `chunk_size - overlap = 750` per step with a final partial
chunk; reassembling the chunks minus the overlaps reconstructs the stripped
text (not the raw input); and the chunk count is exactly
`max 1 (ceil((stripped_len - 150) / 750))` for nonempty stripped text. -/
theorem C3_chunking :
    (∀ text : Chars, chunkText text =
      (List.range (chunkText text).length).map
        (fun i => ((pyStrip text).drop (750 * i)).take 900)) ∧
    (∀ text : Chars, chunkReassemble (chunkText text) = pyStrip text) ∧
    (∀ text : Chars, (chunkText text).length =
      if (pyStrip text).length = 0 then 0
      else max 1 (((pyStrip text).length - 150 + 749) / 750)) := by
  refine ⟨?_, chunkText_reconstructs, ?_⟩
  · intro text
    unfold chunkText
    by_cases he : (pyStrip text).isEmpty
    · simp [he]
    · simp only [he, Bool.false_eq_true, if_false]
      have h := chunkLoop_windows (pyStrip text) 0
      simpa using h
  · intro text
    unfold chunkText
    by_cases he : (pyStrip text).isEmpty
    · rw [List.isEmpty_iff] at he
      simp [he]
    · have hne : pyStrip text ≠ [] := fun hnil => he (by simp [hnil])
      have hlen : 0 < (pyStrip text).length := List.length_pos.mpr hne
      simp only [he, Bool.false_eq_true, if_false]
      rw [chunkLoop_length (pyStrip text) 0 hlen, if_neg (by omega), Nat.sub_zero]
      exact chunk_count_formula _ hlen

/-- C3 counterexample to the reconstruction clause as stated: for the input
`" a"` (leading whitespace) reassembling the chunks yields the stripped text
`"a"`, which differs from the original input. -/
theorem C3_counterexample :
    chunkReassemble (chunkText " a".data) = "a".data ∧ "a".data ≠ " a".data := by
  constructor
  · rw [chunkText_reconstructs]
    decide
  · decide

/-! ### `RagService.ensure_index` and C4 -/

/-- One entry of the persistent vector collection (id, document text and the
metadata written by `ensure_index`).  The embedding vector itself lives inside
the external store and plays no role in the indexing logic. -/
structure ColEntry where
  entryId : Chars
  doc : Chars
  source : Chars
  chunkIndex : Nat
deriving DecidableEq

structure IndexResult where
  status : Chars
  indexed : Nat
  message : Option Chars
  files : Option (List Chars)
deriving DecidableEq

def natToChars (n : Nat) : Chars := (toString n).data

/-- The docs/ids/metas accumulation loop of `ensure_index`: chunk every PDF
text and label chunk `i` of file `base` with id `base::chunk_i`.  The PDF
texts are a parameter (extraction by `pypdf` is an external collaborator). -/
def buildDocs (pdfs : List (Chars × Chars)) : List ColEntry :=
  (pdfs.map (fun pdf =>
    (chunkText pdf.2).enum.map (fun ich =>
      { entryId := pdf.1 ++ "::chunk_".data ++ natToChars ich.1,
        doc := ich.2, source := pdf.1, chunkIndex := ich.1 }))).flatten

/-- Split a list into batches of `size` (the batch loop of `ensure_index`,
`batch_size = 1000`); fuel-driven so that it stays kernel-computable. -/
def batchSplit {α : Type} (size : Nat) : Nat → List α → List (List α)
  | _, [] => []
  | 0, l => [l]
  | fuel+1, l => l.take size :: batchSplit size fuel (l.drop size)

/-- `RagService.ensure_index` over a collection state: returns the new
collection, the result dictionary, and the list of entries written.  The
vector store's `add` is modelled as always accepting a batch (its internal
failure fallback path is vendor behaviour outside the repository). -/
def ensureIndex (pdfs : List (Chars × Chars)) (col : List ColEntry) :
    List ColEntry × IndexResult × List ColEntry :=
  let count := col.length
  if 0 < count then
    (col, ⟨"ok".data, count, some "mevcut indeks".data, none⟩, [])
  else
    let docs := buildDocs pdfs
    let newCol := (batchSplit 1000 docs.length docs).foldl (fun acc b => acc ++ b) col
    (newCol, ⟨"ok".data, docs.length, none, some (pdfs.map (fun p => p.1))⟩, docs)

theorem batchSplit_flatten {α : Type} (size : Nat) (hs : 0 < size) :
    ∀ (fuel : Nat) (l : List α), l.length ≤ fuel → (batchSplit size fuel l).flatten = l := by
  intro fuel
  induction fuel with
  | zero =>
    intro l hl
    cases l with
    | nil => rfl
    | cons a r => simp at hl
  | succ n ih =>
    intro l hl
    cases l with
    | nil => rfl
    | cons a r =>
      simp only [batchSplit, List.flatten_cons]
      rw [ih ((a :: r).drop size)
        (by simp only [List.length_drop, List.length_cons]
            simp only [List.length_cons] at hl
            omega)]
      exact List.take_append_drop size (a :: r)

theorem foldl_append_flatten {α : Type} (bs : List (List α)) (acc : List α) :
    bs.foldl (fun a b => a ++ b) acc = acc ++ bs.flatten := by
  induction bs generalizing acc with
  | nil => simp
  | cons b rest ih => simp [List.foldl_cons, ih, List.append_assoc]

/-- C4: `ensure_index` is a no-op on a populated collection — it performs zero
writes, leaves the collection unchanged and reports the existing index; and on
any second call (same PDF inputs) it writes nothing and leaves the collection
of the first call unchanged. -/
theorem C4_ensure_index :
    (∀ (pdfs : List (Chars × Chars)) (col : List ColEntry), col ≠ [] →
      ensureIndex pdfs col =
        (col, ⟨"ok".data, col.length, some "mevcut indeks".data, none⟩, [])) ∧
    (∀ (pdfs : List (Chars × Chars)) (col : List ColEntry),
      (ensureIndex pdfs (ensureIndex pdfs col).1).2.2 = [] ∧
      (ensureIndex pdfs (ensureIndex pdfs col).1).1 = (ensureIndex pdfs col).1) := by
  have hpop : ∀ (pdfs : List (Chars × Chars)) (col : List ColEntry), col ≠ [] →
      ensureIndex pdfs col =
        (col, ⟨"ok".data, col.length, some "mevcut indeks".data, none⟩, []) := by
    intro pdfs col hc
    unfold ensureIndex
    rw [if_pos (List.length_pos.mpr hc)]
  have hfirst : ∀ (pdfs : List (Chars × Chars)),
      (ensureIndex pdfs []).1 = buildDocs pdfs := by
    intro pdfs
    unfold ensureIndex
    rw [if_neg (by simp)]
    simp only
    rw [foldl_append_flatten, batchSplit_flatten 1000 (by omega) _ _ (le_refl _)]
    simp
  refine ⟨hpop, ?_⟩
  intro pdfs col
  by_cases hc : col = []
  · subst hc
    rw [hfirst pdfs]
    by_cases hd : buildDocs pdfs = []
    · rw [hd]
      constructor
      · show (ensureIndex pdfs []).2.2 = []
        unfold ensureIndex
        rw [if_neg (by simp)]
        simpa using hd
      · show (ensureIndex pdfs []).1 = []
        rw [hfirst pdfs, hd]
    · rw [hpop pdfs _ hd]
      exact ⟨rfl, rfl⟩
  · rw [hpop pdfs col hc]
    rw [hpop pdfs col hc]
    exact ⟨rfl, rfl⟩

/-- Witness for the populated-collection clause of C4 at a concrete state. -/
theorem C4_ensure_index_witness :
    ([⟨"a.pdf".data, "x".data, "a.pdf".data, 0⟩] : List ColEntry) ≠ [] ∧
    ensureIndex [] [⟨"a.pdf".data, "x".data, "a.pdf".data, 0⟩] =
      ([⟨"a.pdf".data, "x".data, "a.pdf".data, 0⟩],
        ⟨"ok".data, 1, some "mevcut indeks".data, none⟩, []) :=
  ⟨by decide, C4_ensure_index.1 [] [⟨"a.pdf".data, "x".data, "a.pdf".data, 0⟩] (by decide)⟩

/-! ### C5: the sanitizer and the denylist patterns -/

theorem escChar_no_lt (c : Char) : '<' ∉ escChar c := by
  unfold escChar
  split_ifs with h1 h2 h3 h4 h5
  · decide
  · decide
  · decide
  · decide
  · decide
  · intro hm
    rw [List.mem_singleton] at hm
    exact h2 hm.symm

theorem htmlEscape_no_lt (t : Chars) : ∀ c ∈ htmlEscape t, c ≠ '<' := by
  intro c hc
  unfold htmlEscape at hc
  rw [List.mem_flatten] at hc
  obtain ⟨piece, hp, hcp⟩ := hc
  rw [List.mem_map] at hp
  obtain ⟨d, _, rfl⟩ := hp
  intro e
  subst e
  exact escChar_no_lt d hcp

theorem pyLowerChar_preimage_low (c s : Char) (hs : s.toNat < 65)
    (h : pyLowerChar c = s) : c = s := by
  unfold pyLowerChar at h
  split at h
  · next hcond =>
    have h2 := congrArg Char.toNat h
    rw [char_toNat_ofNat _ (by omega)] at h2
    omega
  · repeat' split at h
    all_goals first
      | (subst h; exact absurd hs (by decide))
      | exact h

theorem pyLower_no_lt (t : Chars) (h : ∀ c ∈ t, c ≠ '<') :
    ∀ c ∈ pyLower t, c ≠ '<' := by
  intro c hc
  rw [pyLower, List.mem_map] at hc
  obtain ⟨d, hd, rfl⟩ := hc
  intro e
  exact h d hd (pyLowerChar_preimage_low d '<' (by decide) e)

theorem tails_any_false {f : Chars → Bool} {t : Chars}
    (hf : ∀ s, f s = true → ∃ r, s = '<' :: r) (ht : ∀ c ∈ t, c ≠ '<') :
    t.tails.any f = false := by
  induction t with
  | nil =>
    cases hfe : f []
    · simp [List.tails, hfe]
    · obtain ⟨r, hr⟩ := hf [] hfe
      exact absurd hr (by simp)
  | cons c r ih =>
    have hfc : f (c :: r) = false := by
      cases hfe : f (c :: r)
      · rfl
      · obtain ⟨x, hx⟩ := hf _ hfe
        rw [List.cons_eq_cons] at hx
        exact absurd hx.1 (ht c (List.mem_cons_self c r))
    rw [List.tails_cons, List.any_cons, hfc]
    simp only [Bool.false_or]
    exact ih (fun d hd => ht d (List.mem_cons_of_mem _ hd))

theorem matchTagAt_head (name s : Chars) (h : matchTagAt name s = true) :
    ∃ r, s = '<' :: r := by
  unfold matchTagAt eatLit at h
  by_cases hp : ('<' :: name).isPrefixOf s
  · obtain ⟨rest, hrest⟩ := List.isPrefixOf_iff_prefix.mp hp
    exact ⟨name ++ rest, by rw [← hrest]; rfl⟩
  · rw [if_neg hp] at h
    exact absurd h (by simp)

theorem matchScriptAt_head (s : Chars) (h : matchScriptAt s = true) :
    ∃ r, s = '<' :: r := by
  unfold matchScriptAt eatLit at h
  by_cases hp : "<script".data.isPrefixOf s
  · obtain ⟨rest, hrest⟩ := List.isPrefixOf_iff_prefix.mp hp
    exact ⟨"script".data ++ rest, by rw [← hrest]; rfl⟩
  · rw [if_neg hp] at h
    exact absurd h (by simp)

/-- No tag-shaped denylist pattern can match any HTML-escaped text: escaping
replaces every `<`, and each tag pattern needs a literal `<`. -/
theorem tag_matchers_dead (text : Chars) :
    matchScriptTag (pyLower (htmlEscape text)) = false ∧
    matchTag "iframe".data (pyLower (htmlEscape text)) = false ∧
    matchTag "object".data (pyLower (htmlEscape text)) = false ∧
    matchTag "embed".data (pyLower (htmlEscape text)) = false ∧
    matchTag "link".data (pyLower (htmlEscape text)) = false ∧
    matchTag "meta".data (pyLower (htmlEscape text)) = false := by
  have hnl : ∀ c ∈ pyLower (htmlEscape text), c ≠ '<' :=
    pyLower_no_lt _ (htmlEscape_no_lt text)
  refine ⟨?_, ?_, ?_, ?_, ?_, ?_⟩
  · exact tails_any_false matchScriptAt_head hnl
  all_goals exact tails_any_false (matchTagAt_head _) hnl

/-- C5 (amended): the denylist is checked against the HTML-escaped text.  Any
input whose escaped, lowercased form matches one of the URI-scheme or
event-handler patterns is replaced by the fixed blocked sentinel; the six
tag patterns can never fire after escaping, so tag-shaped inputs are returned
escaped instead of blocked. -/
theorem C5_sanitizer :
    (∀ text : Chars,
      matchLit "javascript:".data (pyLower (htmlEscape text)) = true ∨
      matchLit "data:text/html".data (pyLower (htmlEscape text)) = true ∨
      matchLit "vbscript:".data (pyLower (htmlEscape text)) = true ∨
      matchOnEvent (pyLower (htmlEscape text)) = true →
      sanitizeInput text = filteredSentinel) ∧
    (∀ text : Chars,
      matchScriptTag (pyLower (htmlEscape text)) = false ∧
      matchTag "iframe".data (pyLower (htmlEscape text)) = false ∧
      matchTag "object".data (pyLower (htmlEscape text)) = false ∧
      matchTag "embed".data (pyLower (htmlEscape text)) = false ∧
      matchTag "link".data (pyLower (htmlEscape text)) = false ∧
      matchTag "meta".data (pyLower (htmlEscape text)) = false) := by
  refine ⟨?_, tag_matchers_dead⟩
  intro text hm
  cases text with
  | nil =>
    exact absurd hm (by decide)
  | cons c r =>
    unfold sanitizeInput sanitizeWith
    rw [if_neg (by simp)]
    have hany : DANGEROUS_PATTERNS.any
        (fun p => p (pyLower (htmlEscape (c :: r)))) = true := by
      rw [List.any_eq_true]
      rcases hm with h | h | h | h
      · exact ⟨matchLit "javascript:".data, by unfold DANGEROUS_PATTERNS; simp, h⟩
      · exact ⟨matchLit "data:text/html".data, by unfold DANGEROUS_PATTERNS; simp, h⟩
      · exact ⟨matchLit "vbscript:".data, by unfold DANGEROUS_PATTERNS; simp, h⟩
      · exact ⟨matchOnEvent, by unfold DANGEROUS_PATTERNS; simp, h⟩
    simp only [hany, if_true]

/-- Witness for C5: the input `"hi javascript:alert"` is blocked. -/
theorem C5_sanitizer_witness :
    (matchLit "javascript:".data (pyLower (htmlEscape "hi javascript:alert".data)) = true ∨
     matchLit "data:text/html".data (pyLower (htmlEscape "hi javascript:alert".data)) = true ∨
     matchLit "vbscript:".data (pyLower (htmlEscape "hi javascript:alert".data)) = true ∨
     matchOnEvent (pyLower (htmlEscape "hi javascript:alert".data)) = true) ∧
    sanitizeInput "hi javascript:alert".data = filteredSentinel :=
  ⟨Or.inl (by decide), C5_sanitizer.1 "hi javascript:alert".data (Or.inl (by decide))⟩

/-- C5 counterexample to the claim as stated: `"<script>x</script>"` matches
the script-tag denylist pattern case-insensitively, yet the sanitizer returns
the escaped text, not the blocked sentinel. -/
theorem C5_counterexample :
    matchScriptTag (pyLower "<script>x</script>".data) = true ∧
    sanitizeInput "<script>x</script>".data = "&lt;script&gt;x&lt;/script&gt;".data ∧
    sanitizeInput "<script>x</script>".data ≠ filteredSentinel := by
  refine ⟨by decide, by decide, by decide⟩

/-! ### Substring preservation through escaping and whitespace collapsing -/

theorem prefix_stop_semi {k : Chars} (hsemi : ∀ c ∈ k, c ≠ ';') :
    ∀ (ys X : Chars), k <+: ys ++ ';' :: X → k <+: ys := by
  intro ys
  induction ys generalizing k with
  | nil =>
    intro X h
    cases k with
    | nil => exact List.nil_prefix
    | cons k0 ks =>
      rw [List.nil_append] at h
      rcases List.cons_prefix_cons.mp h with ⟨hk0, _⟩
      exact absurd hk0 (hsemi k0 (List.mem_cons_self _ _))
  | cons y ys' ih =>
    intro X h
    cases k with
    | nil => exact List.nil_prefix
    | cons k0 ks =>
      rw [List.cons_append] at h
      rcases List.cons_prefix_cons.mp h with ⟨hk0, hks⟩
      subst hk0
      exact List.cons_prefix_cons.mpr
        ⟨rfl, ih (fun c hc => hsemi c (List.mem_cons_of_mem _ hc)) X hks⟩

theorem infix_split_semi {k : Chars} (hsemi : ∀ c ∈ k, c ≠ ';') :
    ∀ (ys X : Chars), k <:+: ys ++ ';' :: X → k <:+: ys ∨ k <:+: X := by
  intro ys
  induction ys with
  | nil =>
    intro X h
    rw [List.nil_append] at h
    rcases List.infix_cons_iff.mp h with hpre | hinf
    · cases k with
      | nil => exact Or.inl List.nil_infix
      | cons k0 ks =>
        rcases List.cons_prefix_cons.mp hpre with ⟨hk0, _⟩
        exact absurd hk0 (hsemi k0 (List.mem_cons_self _ _))
    · exact Or.inr hinf
  | cons y ys' ih =>
    intro X h
    rw [List.cons_append] at h
    rcases List.infix_cons_iff.mp h with hpre | hinf
    · exact Or.inl (prefix_stop_semi hsemi (y :: ys') X (by rwa [List.cons_append])).isInfix
    · rcases ih X hinf with hl | hr
      · exact Or.inl (List.infix_cons_iff.mpr (Or.inr hl))
      · exact Or.inr hr

theorem prefix_htmlEscape_rev {k : Chars} (hamp : ∀ c ∈ k, c ≠ '&') :
    ∀ t, k <+: htmlEscape t → k <+: t := by
  intro t
  induction t generalizing k with
  | nil =>
    intro h
    have : htmlEscape [] = [] := rfl
    rw [this] at h
    rw [List.prefix_nil.mp h]
  | cons c rest ih =>
    intro h
    have hesc : htmlEscape (c :: rest) = escChar c ++ htmlEscape rest := by
      simp [htmlEscape]
    rw [hesc] at h
    by_cases h1 : c = '&'
    · subst h1
      cases k with
      | nil => exact List.nil_prefix
      | cons k0 ks =>
        have : escChar '&' ++ htmlEscape rest = '&' :: ("amp;".data ++ htmlEscape rest) := by
          simp [escChar]
        rw [this] at h
        rcases List.cons_prefix_cons.mp h with ⟨hk0, _⟩
        exact absurd hk0 (hamp k0 (List.mem_cons_self _ _))
    · by_cases h2 : c = '<'
      · subst h2
        cases k with
        | nil => exact List.nil_prefix
        | cons k0 ks =>
          have : escChar '<' ++ htmlEscape rest = '&' :: ("lt;".data ++ htmlEscape rest) := by
            simp [escChar]
          rw [this] at h
          rcases List.cons_prefix_cons.mp h with ⟨hk0, _⟩
          exact absurd hk0 (hamp k0 (List.mem_cons_self _ _))
      · by_cases h3 : c = '>'
        · subst h3
          cases k with
          | nil => exact List.nil_prefix
          | cons k0 ks =>
            have : escChar '>' ++ htmlEscape rest = '&' :: ("gt;".data ++ htmlEscape rest) := by
              simp [escChar]
            rw [this] at h
            rcases List.cons_prefix_cons.mp h with ⟨hk0, _⟩
            exact absurd hk0 (hamp k0 (List.mem_cons_self _ _))
        · by_cases h4 : c = '"'
          · subst h4
            cases k with
            | nil => exact List.nil_prefix
            | cons k0 ks =>
              have : escChar '"' ++ htmlEscape rest = '&' :: ("quot;".data ++ htmlEscape rest) := by
                simp [escChar]
              rw [this] at h
              rcases List.cons_prefix_cons.mp h with ⟨hk0, _⟩
              exact absurd hk0 (hamp k0 (List.mem_cons_self _ _))
          · by_cases h5 : c = '\''
            · subst h5
              cases k with
              | nil => exact List.nil_prefix
              | cons k0 ks =>
                have : escChar '\'' ++ htmlEscape rest =
                    '&' :: ("#x27;".data ++ htmlEscape rest) := by
                  simp [escChar]
                rw [this] at h
                rcases List.cons_prefix_cons.mp h with ⟨hk0, _⟩
                exact absurd hk0 (hamp k0 (List.mem_cons_self _ _))
            · have hplain : escChar c = [c] := by simp [escChar, h1, h2, h3, h4, h5]
              rw [hplain, List.singleton_append] at h
              cases k with
              | nil => exact List.nil_prefix
              | cons k0 ks =>
                rcases List.cons_prefix_cons.mp h with ⟨hk0, hks⟩
                subst hk0
                exact List.cons_prefix_cons.mpr
                  ⟨rfl, ih (fun d hd => hamp d (List.mem_cons_of_mem _ hd)) hks⟩

theorem infix_htmlEscape_rev {k : Chars} (hk : k ≠ [])
    (hns : ∀ c ∈ k, c ≠ '&' ∧ c ≠ ';')
    (hp1 : ¬ k <:+: "&amp;".data) (hp2 : ¬ k <:+: "&lt;".data)
    (hp3 : ¬ k <:+: "&gt;".data) (hp4 : ¬ k <:+: "&quot;".data)
    (hp5 : ¬ k <:+: "&#x27;".data) :
    ∀ t, k <:+: htmlEscape t → k <:+: t := by
  have hsemi : ∀ c ∈ k, c ≠ ';' := fun c hc => (hns c hc).2
  have hamp : ∀ c ∈ k, c ≠ '&' := fun c hc => (hns c hc).1
  have piece : ∀ (body X : Chars), ¬ k <:+: body →
      k <:+: ('&' :: (body ++ ';' :: X)) → k <:+: X := by
    intro body X hbody h
    rcases List.infix_cons_iff.mp h with hpre | hinf
    · cases k with
      | nil => exact absurd rfl hk
      | cons k0 ks =>
        rcases List.cons_prefix_cons.mp hpre with ⟨hk0, _⟩
        exact absurd hk0 (hamp k0 (List.mem_cons_self _ _))
    · rcases infix_split_semi hsemi body X hinf with hl | hr
      · exact absurd hl hbody
      · exact hr
  intro t
  induction t with
  | nil =>
    intro h
    have : htmlEscape [] = [] := rfl
    rw [this, List.infix_nil] at h
    exact absurd h hk
  | cons c rest ih =>
    intro h
    have hesc : htmlEscape (c :: rest) = escChar c ++ htmlEscape rest := by
      simp [htmlEscape]
    rw [hesc] at h
    by_cases h1 : c = '&'
    · subst h1
      have e : escChar '&' ++ htmlEscape rest =
          '&' :: ("amp".data ++ ';' :: htmlEscape rest) := by
        simp [escChar]
      rw [e] at h
      have : k <:+: htmlEscape rest := by
        refine piece "amp".data _ ?_ h
        intro hb
        exact hp1 (hb.trans (by decide))
      exact (ih this).trans (List.infix_cons_iff.mpr (Or.inr (List.infix_refl _)))
    · by_cases h2 : c = '<'
      · subst h2
        have e : escChar '<' ++ htmlEscape rest =
            '&' :: ("lt".data ++ ';' :: htmlEscape rest) := by
          simp [escChar]
        rw [e] at h
        have : k <:+: htmlEscape rest := by
          refine piece "lt".data _ ?_ h
          intro hb
          exact hp2 (hb.trans (by decide))
        exact (ih this).trans (List.infix_cons_iff.mpr (Or.inr (List.infix_refl _)))
      · by_cases h3 : c = '>'
        · subst h3
          have e : escChar '>' ++ htmlEscape rest =
              '&' :: ("gt".data ++ ';' :: htmlEscape rest) := by
            simp [escChar]
          rw [e] at h
          have : k <:+: htmlEscape rest := by
            refine piece "gt".data _ ?_ h
            intro hb
            exact hp3 (hb.trans (by decide))
          exact (ih this).trans (List.infix_cons_iff.mpr (Or.inr (List.infix_refl _)))
        · by_cases h4 : c = '"'
          · subst h4
            have e : escChar '"' ++ htmlEscape rest =
                '&' :: ("quot".data ++ ';' :: htmlEscape rest) := by
              simp [escChar]
            rw [e] at h
            have : k <:+: htmlEscape rest := by
              refine piece "quot".data _ ?_ h
              intro hb
              exact hp4 (hb.trans (by decide))
            exact (ih this).trans (List.infix_cons_iff.mpr (Or.inr (List.infix_refl _)))
          · by_cases h5 : c = '\''
            · subst h5
              have e : escChar '\'' ++ htmlEscape rest =
                  '&' :: ("#x27".data ++ ';' :: htmlEscape rest) := by
                simp [escChar]
              rw [e] at h
              have : k <:+: htmlEscape rest := by
                refine piece "#x27".data _ ?_ h
                intro hb
                exact hp5 (hb.trans (by decide))
              exact (ih this).trans (List.infix_cons_iff.mpr (Or.inr (List.infix_refl _)))
            · have hplain : escChar c = [c] := by simp [escChar, h1, h2, h3, h4, h5]
              rw [hplain, List.singleton_append] at h
              rcases List.infix_cons_iff.mp h with hpre | hinf
              · cases k with
                | nil => exact absurd rfl hk
                | cons k0 ks =>
                  rcases List.cons_prefix_cons.mp hpre with ⟨hk0, hks⟩
                  subst hk0
                  have hks' : ks <+: rest :=
                    prefix_htmlEscape_rev (fun d hd => hamp d (List.mem_cons_of_mem _ hd)) rest hks
                  exact (List.cons_prefix_cons.mpr ⟨rfl, hks'⟩).isInfix
              · exact (ih hinf).trans (List.infix_cons_iff.mpr (Or.inr (List.infix_refl _)))

theorem prefix_collapse_rev {k : Chars} (hsp : ∀ c ∈ k, pyIsSpace c = false) :
    ∀ t, k <+: collapseWsGo false t → k <+: t := by
  intro t
  induction t generalizing k with
  | nil =>
    intro h
    rw [List.prefix_nil.mp h]
  | cons c r ih =>
    intro h
    cases hc : pyIsSpace c
    · rw [show collapseWsGo false (c :: r) = c :: collapseWsGo false r by
        simp [collapseWsGo, hc]] at h
      cases k with
      | nil => exact List.nil_prefix
      | cons k0 ks =>
        rcases List.cons_prefix_cons.mp h with ⟨hk0, hks⟩
        subst hk0
        exact List.cons_prefix_cons.mpr
          ⟨rfl, ih (fun d hd => hsp d (List.mem_cons_of_mem _ hd)) hks⟩
    · rw [show collapseWsGo false (c :: r) = ' ' :: collapseWsGo true r by
        simp [collapseWsGo, hc]] at h
      cases k with
      | nil => exact List.nil_prefix
      | cons k0 ks =>
        rcases List.cons_prefix_cons.mp h with ⟨hk0, _⟩
        subst hk0
        have := hsp ' ' (List.mem_cons_self _ _)
        exact absurd this (by decide)

theorem infix_collapse_rev {k : Chars} (hk : k ≠ [])
    (hsp : ∀ c ∈ k, pyIsSpace c = false) :
    ∀ t b, k <:+: collapseWsGo b t → k <:+: t := by
  intro t
  induction t with
  | nil =>
    intro b h
    have : collapseWsGo b [] = [] := rfl
    rw [this, List.infix_nil] at h
    exact absurd h hk
  | cons c r ih =>
    intro b h
    cases hc : pyIsSpace c
    · rw [show collapseWsGo b (c :: r) = c :: collapseWsGo false r by
        cases b <;> simp [collapseWsGo, hc]] at h
      rcases List.infix_cons_iff.mp h with hpre | hinf
      · cases k with
        | nil => exact absurd rfl hk
        | cons k0 ks =>
          rcases List.cons_prefix_cons.mp hpre with ⟨hk0, hks⟩
          subst hk0
          have hks' : ks <+: r :=
            prefix_collapse_rev (fun d hd => hsp d (List.mem_cons_of_mem _ hd)) r hks
          exact (List.cons_prefix_cons.mpr ⟨rfl, hks'⟩).isInfix
      · exact (ih false hinf).trans (List.infix_cons_iff.mpr (Or.inr (List.infix_refl _)))
    · cases b
      · rw [show collapseWsGo false (c :: r) = ' ' :: collapseWsGo true r by
          simp [collapseWsGo, hc]] at h
        rcases List.infix_cons_iff.mp h with hpre | hinf
        · cases k with
          | nil => exact absurd rfl hk
          | cons k0 ks =>
            rcases List.cons_prefix_cons.mp hpre with ⟨hk0, _⟩
            subst hk0
            exact absurd (hsp ' ' (List.mem_cons_self _ _)) (by decide)
        · exact (ih true hinf).trans (List.infix_cons_iff.mpr (Or.inr (List.infix_refl _)))
      · rw [show collapseWsGo true (c :: r) = collapseWsGo true r by
          simp [collapseWsGo, hc]] at h
        exact (ih true h).trans (List.infix_cons_iff.mpr (Or.inr (List.infix_refl _)))

theorem escChar_pyLowerChar (c : Char) :
    (escChar c).map pyLowerChar = escChar (pyLowerChar c) := by
  by_cases h1 : c = '&'
  · subst h1; decide
  · by_cases h2 : c = '<'
    · subst h2; decide
    · by_cases h3 : c = '>'
      · subst h3; decide
      · by_cases h4 : c = '"'
        · subst h4; decide
        · by_cases h5 : c = '\''
          · subst h5; decide
          · have n1 : pyLowerChar c ≠ '&' :=
              fun e => h1 (pyLowerChar_preimage_low c '&' (by decide) e)
            have n2 : pyLowerChar c ≠ '<' :=
              fun e => h2 (pyLowerChar_preimage_low c '<' (by decide) e)
            have n3 : pyLowerChar c ≠ '>' :=
              fun e => h3 (pyLowerChar_preimage_low c '>' (by decide) e)
            have n4 : pyLowerChar c ≠ '"' :=
              fun e => h4 (pyLowerChar_preimage_low c '"' (by decide) e)
            have n5 : pyLowerChar c ≠ '\'' :=
              fun e => h5 (pyLowerChar_preimage_low c '\'' (by decide) e)
            rw [show escChar c = [c] by simp [escChar, h1, h2, h3, h4, h5]]
            rw [show escChar (pyLowerChar c) = [pyLowerChar c] by
              simp [escChar, n1, n2, n3, n4, n5]]
            rfl

theorem pyLower_htmlEscape (t : Chars) :
    pyLower (htmlEscape t) = htmlEscape (pyLower t) := by
  induction t with
  | nil => rfl
  | cons c r ih =>
    show (htmlEscape (c :: r)).map pyLowerChar = _
    rw [show htmlEscape (c :: r) = escChar c ++ htmlEscape r by simp [htmlEscape]]
    rw [List.map_append, escChar_pyLowerChar c]
    rw [show pyLower (c :: r) = pyLowerChar c :: pyLower r from rfl]
    rw [show htmlEscape (pyLowerChar c :: pyLower r) =
      escChar (pyLowerChar c) ++ htmlEscape (pyLower r) by simp [htmlEscape]]
    congr 1

/-! ### `animal_system.py` and C10 -/

/-- A result dictionary of the animal module (`type` / `animal` / `text` /
`image_url` keys). -/
structure AnimalResult where
  rtype : Chars
  animal : Chars
  text : Option Chars
  imageUrl : Option Chars
deriving DecidableEq

/-- The six external media endpoints, as an oracle: each field holds the
value the corresponding fetch action extracts from the HTTP JSON response
(`random.dog` may be retried up to six times, hence a sequence). -/
structure AnimalHttp where
  dogPhotoUrl : Nat → Chars
  dogFact : Chars
  catFact : Chars
  catPhotoUrl : Chars
  foxPhotoUrl : Chars
  duckPhotoUrl : Chars

/-- The reply of the OpenAI chat-completions call inside `route_animals`:
either a message carrying an optional `function_call` name, or a raised
exception. -/
inductive ClientReply where
  | ok (fnName : Option Chars)
  | err
deriving DecidableEq

/-- `animal_system._is_image_url`. -/
def isImageUrl (url : Chars) : Bool :=
  if url.isEmpty then false
  else
    let u := pyLower url
    [".jpg".data, ".jpeg".data, ".png".data, ".gif".data, ".webp".data].any
      (fun ext => ext.isSuffixOf u)

/-- `animal_system.dog_photo`: up to six attempts, first image-extension URL
wins, fixed apology text otherwise. -/
def dogPhoto (http : AnimalHttp) : AnimalResult :=
  match (List.range 6).find? (fun i => isImageUrl (pyStrip (http.dogPhotoUrl i))) with
  | some i => ⟨"image".data, "dog".data, none, some (pyStrip (http.dogPhotoUrl i))⟩
  | none => ⟨"text".data, "dog".data,
      some "Şu an uygun köpek fotoğrafı bulunamadı, tekrar dener misin?".data, none⟩

def dogFacts (http : AnimalHttp) : AnimalResult :=
  ⟨"text".data, "dog".data, some http.dogFact, none⟩

def catFacts (http : AnimalHttp) : AnimalResult :=
  ⟨"text".data, "cat".data, some http.catFact, none⟩

def catPhoto (http : AnimalHttp) : AnimalResult :=
  ⟨"image".data, "cat".data, none, some http.catPhotoUrl⟩

def foxPhoto (http : AnimalHttp) : AnimalResult :=
  ⟨"image".data, "fox".data, none, some http.foxPhotoUrl⟩

def duckPhoto (http : AnimalHttp) : AnimalResult :=
  ⟨"image".data, "duck".data, none, some http.duckPhotoUrl⟩

def photoWords (t : Chars) : Bool :=
  infixBool "foto".data t || infixBool "resim".data t ||
  infixBool "image".data t || infixBool "photo".data t

def factWords (t : Chars) : Bool :=
  infixBool "fact".data t || infixBool "bilgi".data t

/-- `animal_system._animal_keyword_router`. -/
def animalKeywordRouter (http : AnimalHttp) (text : Chars) : Option AnimalResult :=
  let t := pyLower text
  if (infixBool "köpek".data t || infixBool "dog".data t) && photoWords t then
    some (dogPhoto http)
  else if (infixBool "köpek".data t || infixBool "dog".data t) && factWords t then
    some (dogFacts http)
  else if (infixBool "kedi".data t || infixBool "cat".data t) && factWords t then
    some (catFacts http)
  else if (infixBool "kedi".data t || infixBool "cat".data t) && photoWords t then
    some (catPhoto http)
  else if (infixBool "tilki".data t || infixBool "fox".data t) && photoWords t then
    some (foxPhoto http)
  else if (infixBool "ördek".data t || infixBool "duck".data t) && photoWords t then
    some (duckPhoto http)
  else none

def animalKeywords : List Chars :=
  ["köpek".data, "dog".data, "kedi".data, "cat".data,
   "tilki".data, "fox".data, "ördek".data, "duck".data]

/-- The pre-filter of `route_animals` (line 225): any animal keyword in the
lowercased sanitized message? -/
def hasAnimalKeyword (t : Chars) : Bool :=
  animalKeywords.any (fun k => infixBool k t)

/-- `animal_system.route_animals`: guards, pre-filter, function-calling via
the client oracle, keyword fallback on exception. -/
def routeAnimals (client : Chars → ClientReply) (http : AnimalHttp)
    (userMessage : Chars) : Option AnimalResult :=
  if userMessage.isEmpty then none
  else if ¬ userMessage.length ≤ 500 then
    some ⟨"text".data, "error".data,
      some "Mesaj çok uzun. Maksimum 500 karakter olabilir.".data, none⟩
  else
    let m := sanitizeAnimalInput userMessage
    if m = filteredSentinel then
      some ⟨"text".data, "error".data,
        some "Güvenlik nedeniyle mesaj filtrelendi".data, none⟩
    else
      let tl := pyLower m
      if ¬ hasAnimalKeyword tl then none
      else
        match client m with
        | .err => animalKeywordRouter http m
        | .ok none => none
        | .ok (some fn) =>
          if fn = "dog_photo".data then some (dogPhoto http)
          else if fn = "dog_facts".data then some (dogFacts http)
          else if fn = "cat_facts".data then some (catFacts http)
          else if fn = "cat_photo".data then some (catPhoto http)
          else if fn = "fox_photo".data then some (foxPhoto http)
          else if fn = "duck_photo".data then some (duckPhoto http)
          else none

theorem animal_keyword_props :
    ∀ k ∈ animalKeywords, k ≠ [] ∧ (∀ c ∈ k, pyIsSpace c = false) ∧
      (∀ c ∈ k, c ≠ '&' ∧ c ≠ ';') ∧
      ¬ k <:+: "&amp;".data ∧ ¬ k <:+: "&lt;".data ∧ ¬ k <:+: "&gt;".data ∧
      ¬ k <:+: "&quot;".data ∧ ¬ k <:+: "&#x27;".data := by decide

/-- A keyword absent from the lowercased raw message is also absent from the
lowercased sanitized message (escaping, whitespace collapsing and stripping
cannot manufacture an animal keyword). -/
theorem keyword_not_in_sanitized {k msg : Chars} (hmem : k ∈ animalKeywords)
    (hno : ¬ k <:+: pyLower msg) :
    infixBool k (pyLower (pyStrip (collapseWs (htmlEscape msg)))) = false := by
  obtain ⟨hk, hsp, hns, hp1, hp2, hp3, hp4, hp5⟩ := animal_keyword_props k hmem
  rw [← Bool.not_eq_true, infixBool_iff]
  intro hinf
  apply hno
  have hlsp : ∀ c, pyIsSpace (pyLowerChar c) = pyIsSpace c := pyIsSpace_pyLowerChar
  rw [show pyLower (pyStrip (collapseWs (htmlEscape msg))) =
      pyStrip (pyLower (collapseWs (htmlEscape msg))) from
    map_pyStrip pyLowerChar hlsp _] at hinf
  rw [show pyLower (collapseWs (htmlEscape msg)) =
      collapseWs (pyLower (htmlEscape msg)) from
    map_collapseWs pyLowerChar hlsp (by decide) _] at hinf
  rw [pyLower_htmlEscape] at hinf
  have h1 : k <:+: collapseWs (htmlEscape (pyLower msg)) :=
    hinf.trans (pyStrip_infix_self _)
  have h2 : k <:+: htmlEscape (pyLower msg) :=
    infix_collapse_rev hk hsp _ false h1
  exact infix_htmlEscape_rev hk hns hp1 hp2 hp3 hp4 hp5 _ h2

/-- C10: a non-empty, length-valid, non-blocked message containing none of
the eight animal keywords (lower-cased) makes `route_animals` return `None`
without invoking the completion client or any HTTP fetch: the outcome is
`none` and is independent of both oracles. -/
theorem C10_route_animals
    (client₁ client₂ : Chars → ClientReply) (http₁ http₂ : AnimalHttp) (msg : Chars)
    (hne : msg ≠ []) (hlen : msg.length ≤ 500)
    (hblock : sanitizeAnimalInput msg ≠ filteredSentinel)
    (hkw : ∀ k ∈ animalKeywords, ¬ k <:+: pyLower msg) :
    routeAnimals client₁ http₁ msg = none ∧
    routeAnimals client₁ http₁ msg = routeAnimals client₂ http₂ msg := by
  have hval : sanitizeAnimalInput msg = pyStrip (collapseWs (htmlEscape msg)) := by
    unfold sanitizeAnimalInput sanitizeWith at hblock ⊢
    rw [if_neg (by simpa using hne)] at hblock ⊢
    by_cases hpat : DANGEROUS_PATTERNS8.any (fun p => p (pyLower (htmlEscape msg))) = true
    · rw [if_pos hpat] at hblock
      exact absurd rfl hblock
    · rw [if_neg hpat]
  have hnone : ∀ (client : Chars → ClientReply) (http : AnimalHttp),
      routeAnimals client http msg = none := by
    intro client http
    unfold routeAnimals
    rw [if_neg (by simpa using hne), if_neg (by omega)]
    rw [if_neg (by rw [hval]; exact fun e => hblock (by rw [hval, e]))]
    have hkwf : hasAnimalKeyword (pyLower (sanitizeAnimalInput msg)) = false := by
      unfold hasAnimalKeyword
      rw [List.any_eq_false]
      intro k hkmem
      rw [hval]
      simp only [Bool.not_eq_true]
      exact keyword_not_in_sanitized hkmem (hkw k hkmem)
    rw [if_pos (by rw [hkwf]; simp)]
  rw [hnone client₁ http₁, hnone client₂ http₂]
  exact ⟨rfl, rfl⟩

/-- Witness for C10: `"merhaba nasılsın"` with two different client/HTTP
oracles. -/
theorem C10_route_animals_witness :
    ("merhaba nasılsın".data ≠ ([] : Chars)) ∧
    routeAnimals (fun _ => ClientReply.ok none)
      ⟨fun _ => [], [], [], [], [], []⟩ "merhaba nasılsın".data = none ∧
    routeAnimals (fun _ => ClientReply.ok none)
      ⟨fun _ => [], [], [], [], [], []⟩ "merhaba nasılsın".data =
    routeAnimals (fun _ => ClientReply.err)
      ⟨fun _ => "x.jpg".data, "f".data, "f".data, "u".data, "u".data, "u".data⟩
      "merhaba nasılsın".data := by
  refine ⟨by decide, ?_⟩
  exact C10_route_animals (fun _ => ClientReply.ok none) (fun _ => ClientReply.err)
    ⟨fun _ => [], [], [], [], [], []⟩
    ⟨fun _ => "x.jpg".data, "f".data, "f".data, "u".data, "u".data, "u".data⟩
    "merhaba nasılsın".data (by decide) (by decide) (by decide) (by decide)

/-! ### `api_web_chatbot.py`: the chain system, C1 and C6 -/

/-- Python `str.replace(old, new)` for a nonempty `old`, fuel-driven
left-to-right scan (fuel = input length suffices: every step consumes at
least one character). -/
def replaceAllF (p rep : Chars) : Nat → Chars → Chars
  | _, [] => []
  | 0, t => t
  | fuel+1, c :: r =>
    if p.isPrefixOf (c :: r) && !p.isEmpty then
      rep ++ replaceAllF p rep fuel (List.drop (p.length - 1) r)
    else c :: replaceAllF p rep fuel r

def pyReplace (t p rep : Chars) : Chars := replaceAllF p rep t.length t

/-- `PromptTemplate` rendering: substitute the `\x7binput\x7d` placeholder. -/
def renderTemplate (template input : Chars) : Chars :=
  pyReplace template "\x7binput\x7d".data input

def flowPromptTemplate : Chars := "Kullanıcının mesajını analiz et ve şu akışlardan birini seç:

ÖNEMLİ KURALLAR:
1. Eğer kullanıcı BİLGİ istiyorsa (hayvan bakımı, beslenme, barınma, sağlık, eğitim, bakım önerileri) → RAG
2. Eğer kullanıcı HAYVAN istiyorsa (köpek, kedi, tilki, ördek fotoğraf/bilgi) → ANIMAL
3. Eğer kullanıcı SOHBET/DUYGU istiyorsa (merhaba, nasılsın, üzgünüm, mutluyum) → EMOTION
4. Eğer kullanıcı İSTATİSTİK/ÖZET istiyorsa (\"kaç kez/defa\", \"istatistik\", \"özet\", belirli duygu istatistiği, bugün/bugüne ait sayım) → STATS
5. Eğer kullanıcı hiçbir özelliği çağırmıyorsa (genel sorular, yardım, ne yapabilirsin) → HELP

Akışlar:
- ANIMAL: Köpek, kedi, tilki, ördek fotoğraf/bilgi isteği
- RAG: Kedi/Papağan/Tavşan bakımı, beslenme, barınma, sağlık, eğitim, bakım rutinleri
- EMOTION: Duygu analizi, sohbet, normal konuşma
- STATS: Duygu istatistikleri (today/all + isteğe bağlı duygu filtresi)
- HELP: Yardım, ne yapabilirsin, genel bilgi istekleri

Kullanıcı Mesajı: \x7binput\x7d

Sadece şu yanıtlardan birini ver: ANIMAL, RAG, EMOTION, STATS, HELP".data

def ragPromptTemplate : Chars := "Sen bir hayvan bakımı bilgi asistanısın. Verilen BAĞLAM (PDF parçaları) üzerinden
kullanıcının sorusunu YALNIZCA bağlama dayanarak yanıtla. Türkçe, kısa, net ve uygulanabilir yaz.

Kesin kurallar:
1) Doğrudan yanıt ver; bölüm/başlık/\"git oku\" tarzı yönlendirmeler yapma.
2) Bağlamdaki bilgileri özlü maddeler halinde veya kısa paragraflarla aktar.
3) Kaynak ve alıntı isimlerini yazma; sadece içerik ver.
4) Bağlam yeterli değilse bunu açıkça söyle: \"Bağlamda yeterli bilgi yok.\"
5) JSON üretme; normal metin ver. Maksimum 5 cümle.

SORU VE BAĞLAM: \x7binput\x7d

YANIT:".data

def helpMessage : Chars := "🤖 Merhaba! Ben akıllı bir chatbot'um ve size şu özelliklerle yardımcı olabilirim:

📚 **BİLGİ SİSTEMİ (RAG)**: 
• Kedi / Papağan / Tavşan bakımı (beslenme, barınma, sağlık, eğitim)
• \"Kedi yavrusu nasıl beslenir?\", \"Papağan kafes bakımı nasıl yapılır?\", \"Tavşan tırnak kesimi nasıl yapılır?\"

🐶 **HAYVAN SİSTEMİ**:
• Köpek, kedi, tilki, ördek fotoğraf ve bilgileri
• \"köpek fotoğrafı ver\", \"kedi bilgisi ver\" gibi istekler

💭 **DUYGU ANALİZİ**:
• Duygularınızı analiz eder ve size uygun yanıtlar verir
• \"Bugün çok mutluyum\", \"Üzgün hissediyorum\" gibi mesajlar

🎯 **KULLANIM**: Ekranda gördüğünüz kutucukları kullanarak veya yukarıdaki örnekler gibi mesajlar göndererek bu chatbot'u kullanabilirsiniz!".data

/-- One retrieved chunk as used by `_process_rag_flow` (`text` plus the
`source` metadata field). -/
structure RagChunk where
  text : Chars
  source : Chars
deriving DecidableEq

/-- The `RAG_SOURCES` table (UI id and emoji per known source file). -/
def ragSourceInfo (name : Chars) : Option (Chars × Chars) :=
  if name = "cat_care.pdf".data then some ("pdf-python".data, "🐱".data)
  else if name = "parrot_care.pdf".data then some ("pdf-anayasa".data, "🦜".data)
  else if name = "rabbit_care.pdf".data then some ("pdf-clean".data, "🐰".data)
  else none

/-- A result dictionary of the main processing chain. -/
structure ChainResult where
  response : Option Chars := none
  flowType : Option Chars := none
  help : Bool := false
  rag : Bool := false
  ragSource : Option Chars := none
  ragEmoji : Option Chars := none
  animal : Option Chars := none
  animalType : Option Chars := none
  animalEmoji : Option Chars := none
  imageUrl : Option Chars := none
  error : Option Chars := none
deriving DecidableEq

/-- The conversation memory (`ConversationSummaryBufferMemory.save_context`
pairs, appended in order). -/
abbrev Memory := List (Chars × Chars)

/-- `"sep".join(xs)`. -/
def joinSep (sep : Chars) : List Chars → Chars
  | [] => []
  | [x] => x
  | x :: rest => x ++ sep ++ joinSep sep rest

/-- `animal_system._animal_emoji`. -/
def animalEmojiOf (animal : Chars) : Chars :=
  if animal = "dog".data then "🐶".data
  else if animal = "cat".data then "🐱".data
  else if animal = "fox".data then "🦊".data
  else if animal = "duck".data then "🦆".data
  else "🙂".data

/-- Python `str.capitalize()` over the modelled alphabet. -/
def pyCapitalize : Chars → Chars
  | [] => []
  | c :: r => pyUpperChar c :: pyLower r

/-- `_process_help_flow`. -/
def processHelpFlow (mem : Memory) (userMessage : Chars) : ChainResult × Memory :=
  ({ help := true, response := some helpMessage }, mem ++ [(userMessage, helpMessage)])

/-- The environment of external collaborators wired into
`create_main_processing_chain`: the LangChain llm, the RAG service retrieval
methods, the OpenAI client and HTTP endpoints of the animal chain, and the
emotion / stats sub-processors. -/
structure ChainEnv where
  llm : Chars → Chars
  retrieveTop : Chars → Nat → List RagChunk
  retrieveBySource : Chars → Chars → Nat → List RagChunk
  client : Chars → ClientReply
  http : AnimalHttp
  emotionProc : Chars → Memory → ChainResult × Memory
  statsProc : Chars → Memory → ChainResult × Memory

/-- `create_animal_chain`'s `animal_processor`. -/
def animalProcessor (env : ChainEnv) (mem : Memory) (userMessage : Chars) :
    ChainResult × Memory :=
  match routeAnimals env.client env.http userMessage with
  | some r =>
    let emoji := animalEmojiOf r.animal
    let response :=
      if r.rtype = "image".data then
        emoji ++ " ".data ++ pyCapitalize r.animal ++ " fotoğrafı hazır.".data
      else r.text.getD []
    let out : ChainResult :=
      if r.rtype = "image".data then
        { animal := some r.animal, animalType := some r.rtype, animalEmoji := some emoji,
          imageUrl := r.imageUrl, response := some response }
      else
        { animal := some r.animal, animalType := some r.rtype, animalEmoji := some emoji,
          response := some response }
    (out, mem ++ [(userMessage, response)])
  | none =>
    ({ response := some "Hayvan bulunamadı.".data },
      mem ++ [(userMessage, "Hayvan bulunamadı.".data)])

/-- The source-filtered branch of `_process_rag_flow`. -/
def ragSourceBranch (env : ChainEnv) (mem : Memory) (userMessage srcName : Chars) :
    Option ChainResult × Memory :=
  let chunks := env.retrieveBySource userMessage srcName 6
  if chunks.isEmpty then (none, mem)
  else
    let context := joinSep "\n\n".data (chunks.map (fun c => c.text))
    let combined := "BAĞLAM:\n".data ++ context ++ "\n\nSORU: ".data ++ userMessage
    let result := env.llm (renderTemplate ragPromptTemplate combined)
    let ui := ragSourceInfo srcName
    (some { rag := true, response := some result,
            ragSource := ui.map (fun u => u.1), ragEmoji := ui.map (fun u => u.2) },
      mem ++ [(userMessage, result)])

/-- `_process_rag_flow`: keyword-directed source filtering, general retrieval
otherwise, `None` when no chunks are found.  The set of chunk sources is
modelled in chunk order (Python builds it as an unordered set). -/
def processRagFlow (env : ChainEnv) (mem : Memory) (userMessage : Chars) :
    Option ChainResult × Memory :=
  let t := pyLower userMessage
  if infixBool "kedi".data t || infixBool "cat".data t then
    ragSourceBranch env mem userMessage "cat_care.pdf".data
  else if infixBool "papağan".data t || infixBool "parrot".data t || infixBool "kuş".data t then
    ragSourceBranch env mem userMessage "parrot_care.pdf".data
  else if infixBool "tavşan".data t || infixBool "rabbit".data t then
    ragSourceBranch env mem userMessage "rabbit_care.pdf".data
  else
    let chunks := env.retrieveTop userMessage 6
    if chunks.isEmpty then (none, mem)
    else
      let context := joinSep "\n\n".data (chunks.map (fun c => c.text))
      let sources := (chunks.map (fun c => c.source)).dedup
      let combined := "BAĞLAM:\n".data ++ context ++ "\n\nSORU: ".data ++ userMessage
      let result := env.llm (renderTemplate ragPromptTemplate combined)
      let lit := sources.find? (fun s => (ragSourceInfo s).isSome)
      let ui := lit.bind ragSourceInfo
      (some { rag := true, response := some result,
              ragSource := ui.map (fun u => u.1), ragEmoji := ui.map (fun u => u.2) },
        mem ++ [(userMessage, result)])

/-- `create_main_processing_chain`'s `process_message`. -/
def processMessage (env : ChainEnv) (mem : Memory) (userMessage : Chars) :
    ChainResult × Memory :=
  let flowDecision := flowDecisionParse (env.llm (renderTemplate flowPromptTemplate userMessage))
  if flowDecision = "RAG".data then
    match processRagFlow env mem userMessage with
    | (none, mem') =>
      let (h, mem'') := processHelpFlow mem' userMessage
      ({ h with flowType := some "HELP".data }, mem'')
    | (some r, mem') => ({ r with flowType := some "RAG".data }, mem')
  else if flowDecision = "ANIMAL".data then
    let (r, mem') := animalProcessor env mem userMessage
    ({ r with flowType := some "ANIMAL".data }, mem')
  else if flowDecision = "EMOTION".data then
    let (r, mem') := env.emotionProc userMessage mem
    ({ r with flowType := some "EMOTION".data }, mem')
  else if flowDecision = "STATS".data then
    let (r, mem') := env.statsProc userMessage mem
    ({ r with flowType := some "STATS".data }, mem')
  else if flowDecision = "HELP".data then
    let (h, mem') := processHelpFlow mem userMessage
    ({ h with flowType := some "HELP".data }, mem')
  else
    let (h, mem') := processHelpFlow mem userMessage
    ({ h with flowType := some "HELP".data }, mem')

def trivialChainEnv : ChainEnv :=
  { llm := fun _ => [],
    retrieveTop := fun _ _ => [],
    retrieveBySource := fun _ _ _ => [],
    client := fun _ => ClientReply.ok none,
    http := ⟨fun _ => [], [], [], [], [], []⟩,
    emotionProc := fun _ mem => ({}, mem),
    statsProc := fun _ mem => ({}, mem) }

/-- C1 (amended): a `None` from the RAG handler makes the router re-dispatch
to HELP and answer with the fixed help text (never an error), and empty
retrieval always yields a `None` RAG result; but a `None` from
`route_animals` does NOT re-dispatch — the animal chain converts it into the
fixed `"Hayvan bulunamadı."` response with flow type ANIMAL (still not an
error). -/
theorem C1_null_result_dispatch :
    (∀ (env : ChainEnv) (mem : Memory) (msg : Chars),
      flowDecisionParse (env.llm (renderTemplate flowPromptTemplate msg)) = "RAG".data →
      (processRagFlow env mem msg).1 = none →
      (processMessage env mem msg).1 =
        { help := true, response := some helpMessage, flowType := some "HELP".data }) ∧
    (∀ (env : ChainEnv) (mem : Memory) (msg : Chars),
      (∀ q k, env.retrieveTop q k = []) → (∀ q s k, env.retrieveBySource q s k = []) →
      (processRagFlow env mem msg).1 = none) ∧
    (∀ (env : ChainEnv) (mem : Memory) (msg : Chars),
      flowDecisionParse (env.llm (renderTemplate flowPromptTemplate msg)) = "ANIMAL".data →
      routeAnimals env.client env.http msg = none →
      (processMessage env mem msg).1 =
        { response := some "Hayvan bulunamadı.".data, flowType := some "ANIMAL".data }) := by
  refine ⟨?_, ?_, ?_⟩
  · intro env mem msg hdec hrag
    unfold processMessage
    rw [hdec]
    simp only [if_pos rfl]
    obtain ⟨r, hr⟩ : ∃ m', processRagFlow env mem msg = (none, m') := by
      rcases hp : processRagFlow env mem msg with ⟨or, m'⟩
      rw [hp] at hrag
      simp at hrag
      exact ⟨m', by rw [hrag]⟩
    rw [hr]
    rfl
  · intro env mem msg htop hsrc
    unfold processRagFlow ragSourceBranch
    simp only [htop, hsrc, List.isEmpty_nil, if_true]
    split_ifs <;> rfl
  · intro env mem msg hdec hroute
    unfold processMessage
    rw [hdec]
    rw [if_neg (by decide)]
    simp only [if_pos rfl]
    unfold animalProcessor
    rw [hroute]
    simp

/-- Witness for C1: a RAG decision with empty retrieval resolves to the HELP
text, exercised at a concrete environment and message. -/
theorem C1_null_result_dispatch_witness :
    (processMessage { trivialChainEnv with llm := fun _ => "RAG".data } [] "x".data).1 =
      { help := true, response := some helpMessage, flowType := some "HELP".data } := by
  refine C1_null_result_dispatch.1 _ [] "x".data (by decide) ?_
  exact C1_null_result_dispatch.2.1 _ [] "x".data (fun _ _ => rfl) (fun _ _ _ => rfl)

/-- C1 counterexample to the claim as stated: the classifier picks ANIMAL,
`route_animals` returns `None`, yet the router does not re-dispatch to HELP —
the overall response is `"Hayvan bulunamadı."` with flow type ANIMAL. -/
theorem C1_counterexample :
    routeAnimals trivialChainEnv.client trivialChainEnv.http "merhaba".data = none ∧
    (processMessage { trivialChainEnv with llm := fun _ => "ANIMAL".data }
        [] "merhaba".data).1 =
      { response := some "Hayvan bulunamadı.".data, flowType := some "ANIMAL".data } ∧
    (processMessage { trivialChainEnv with llm := fun _ => "ANIMAL".data }
        [] "merhaba".data).1.flowType ≠ some "HELP".data ∧
    (processMessage { trivialChainEnv with llm := fun _ => "ANIMAL".data }
        [] "merhaba".data).1.response ≠ some helpMessage := by
  refine ⟨by decide, ?_, ?_, ?_⟩ <;> decide


/-! ### Symbolic evaluation helpers for long homogeneous inputs -/

theorem dropWhile_all_neg {p : Char → Bool} {t : Chars}
    (h : ∀ c ∈ t, p c = false) : t.dropWhile p = t := by
  cases t with
  | nil => rfl
  | cons c r =>
    exact List.dropWhile_cons_of_neg (by simp [h c (List.mem_cons_self _ _)])

theorem pyStrip_all_nospace {t : Chars} (h : ∀ c ∈ t, pyIsSpace c = false) :
    pyStrip t = t := by
  unfold pyStrip
  rw [dropWhile_all_neg h,
    dropWhile_all_neg (fun c hc => h c (List.mem_reverse.mp hc)), List.reverse_reverse]

theorem collapse_all_nospace {t : Chars} (h : ∀ c ∈ t, pyIsSpace c = false) :
    ∀ b, collapseWsGo b t = t := by
  induction t with
  | nil => intro b; rfl
  | cons c r ih =>
    intro b
    rw [show collapseWsGo b (c :: r) = c :: collapseWsGo false r by
      cases b <;> simp [collapseWsGo, h c (List.mem_cons_self _ _)]]
    rw [ih (fun d hd => h d (List.mem_cons_of_mem _ hd)) false]

theorem htmlEscape_all_plain {t : Chars} (h : ∀ c ∈ t, escChar c = [c]) :
    htmlEscape t = t := by
  induction t with
  | nil => rfl
  | cons c r ih =>
    rw [show htmlEscape (c :: r) = escChar c ++ htmlEscape r by simp [htmlEscape]]
    rw [h c (List.mem_cons_self _ _), ih (fun d hd => h d (List.mem_cons_of_mem _ hd)),
      List.singleton_append]

theorem tails_any_false_char (c0 : Char) {f : Chars → Bool} {t : Chars}
    (hf : ∀ s, f s = true → ∃ r, s = c0 :: r) (ht : ∀ c ∈ t, c ≠ c0) :
    t.tails.any f = false := by
  induction t with
  | nil =>
    cases hfe : f []
    · simp [List.tails, hfe]
    · obtain ⟨r, hr⟩ := hf [] hfe
      exact absurd hr (by simp)
  | cons c r ih =>
    have hfc : f (c :: r) = false := by
      cases hfe : f (c :: r)
      · rfl
      · obtain ⟨x, hx⟩ := hf _ hfe
        rw [List.cons_eq_cons] at hx
        exact absurd hx.1 (ht c (List.mem_cons_self c r))
    rw [List.tails_cons, List.any_cons, hfc]
    simp only [Bool.false_or]
    exact ih (fun d hd => ht d (List.mem_cons_of_mem _ hd))

theorem matchOnEventAt_head (s : Chars) (h : matchOnEventAt s = true) :
    ∃ r, s = 'o' :: r := by
  match s with
  | [] => exact absurd h (by decide)
  | [c] => exact absurd h (by simp [matchOnEventAt])
  | c1 :: c2 :: rest =>
    unfold matchOnEventAt at h
    simp only [Bool.and_eq_true, decide_eq_true_eq] at h
    exact ⟨c2 :: rest, by rw [h.1.1]⟩

theorem infixBool_false_of_fresh {p t : Chars} {c0 : Char}
    (hc : c0 ∈ p) (ht : ∀ c ∈ t, c ≠ c0) : infixBool p t = false := by
  rw [← Bool.not_eq_true, infixBool_iff]
  intro hinf
  exact ht c0 (hinf.subset hc) rfl

/-- None of the main denylist matchers fires on a string of `'a'`s. -/
theorem patterns_false_on_a (n : Nat) :
    DANGEROUS_PATTERNS.any (fun p => p (pyLower (htmlEscape (List.replicate n 'a')))) = false := by
  have hmem : ∀ c ∈ List.replicate n 'a', c = 'a' := fun c hc => List.eq_of_mem_replicate hc
  have hesc : htmlEscape (List.replicate n 'a') = List.replicate n 'a' :=
    htmlEscape_all_plain (fun c hc => by rw [hmem c hc]; decide)
  have hlow : pyLower (List.replicate n 'a') = List.replicate n 'a' := by
    rw [pyLower, List.map_replicate]
    rfl
  rw [hesc, hlow]
  have hne : ∀ (d : Char), d ≠ 'a' → ∀ c ∈ List.replicate n 'a', c ≠ d := by
    intro d hd c hc e
    rw [hmem c hc] at e
    exact hd e.symm
  rw [List.any_eq_false]
  intro p hp
  unfold DANGEROUS_PATTERNS at hp
  simp only [List.mem_cons, List.not_mem_nil, or_false] at hp
  rw [Bool.not_eq_true]
  rcases hp with rfl | rfl | rfl | rfl | rfl | rfl | rfl | rfl | rfl | rfl
  · exact tails_any_false_char '<' matchScriptAt_head (hne '<' (by decide))
  · exact infixBool_false_of_fresh (p := "javascript:".data) (by decide) (hne 'j' (by decide))
  · exact infixBool_false_of_fresh (p := "data:text/html".data) (by decide) (hne 'd' (by decide))
  · exact infixBool_false_of_fresh (p := "vbscript:".data) (by decide) (hne 'v' (by decide))
  · exact tails_any_false_char 'o' matchOnEventAt_head (hne 'o' (by decide))
  · exact tails_any_false_char '<' (matchTagAt_head _) (hne '<' (by decide))
  · exact tails_any_false_char '<' (matchTagAt_head _) (hne '<' (by decide))
  · exact tails_any_false_char '<' (matchTagAt_head _) (hne '<' (by decide))
  · exact tails_any_false_char '<' (matchTagAt_head _) (hne '<' (by decide))
  · exact tails_any_false_char '<' (matchTagAt_head _) (hne '<' (by decide))

theorem sanitizeInput_replicate_a (n : Nat) (h : 0 < n) :
    sanitizeInput (List.replicate n 'a') = List.replicate n 'a' := by
  have hmem : ∀ c ∈ List.replicate n 'a', c = 'a' := fun c hc => List.eq_of_mem_replicate hc
  have hnosp : ∀ c ∈ List.replicate n 'a', pyIsSpace c = false :=
    fun c hc => by rw [hmem c hc]; decide
  unfold sanitizeInput sanitizeWith
  rw [if_neg (by cases n with | zero => omega | succ m => simp)]
  rw [if_neg (by rw [patterns_false_on_a n]; simp)]
  have hesc : htmlEscape (List.replicate n 'a') = List.replicate n 'a' :=
    htmlEscape_all_plain (fun c hc => by rw [hmem c hc]; decide)
  rw [hesc, show collapseWs (List.replicate n 'a') = List.replicate n 'a' from
    collapse_all_nospace hnosp false]
  exact pyStrip_all_nospace hnosp

/-! ### The `/chat` endpoint and C6 -/

def MAX_MESSAGE_LENGTH : Nat := 2000

def MAX_TOKENS_PER_REQUEST : Nat := 1000

/-- `_validate_message_length`. -/
def validateMessageLength (t : Chars) : Bool := t.length ≤ MAX_MESSAGE_LENGTH

/-- `_estimate_tokens`: about one token per four characters. -/
def estimateTokens (t : Chars) : Nat := t.length / 4

/-- `_summarize_text_if_needed`: below the threshold, or with no summarizer
pipeline available, the text is returned unchanged; otherwise the pipeline
(an external T5 model, an oracle here) is run on the `summarize: `-prefixed
text, and an empty summary falls back to the original text. -/
def summarizeTextIfNeeded (pipeline : Option (Chars → Chars))
    (text : Chars) (estimatedTokens : Nat) (tokenThreshold : Nat) : Chars :=
  if estimatedTokens ≤ tokenThreshold then text
  else
    match pipeline with
    | none => text
    | some f =>
      let summary := pyStrip (f ("summarize: ".data ++ text))
      if summary.isEmpty then text else summary

inductive ChatResponse where
  | failure (msg : Chars)
  | success (result : ChainResult)
deriving DecidableEq

/-- The `/chat` endpoint (`chat(payload)`): guards, sanitization,
summarization, the hard token ceiling, then the main chain. -/
def chatEndpoint (pipeline : Option (Chars → Chars)) (env : ChainEnv)
    (mem : Memory) (payloadMessage : Chars) : ChatResponse × Memory :=
  let userMessage := pyStrip payloadMessage
  if userMessage.isEmpty then (.failure "Mesaj boş olamaz".data, mem)
  else if ¬ validateMessageLength userMessage = true then
    (.failure "Mesaj çok uzun. Maksimum 2000 karakter olabilir.".data, mem)
  else
    let sanitized := sanitizeInput userMessage
    if sanitized = filteredSentinel then
      (.failure "Güvenlik nedeniyle mesaj filtrelendi".data, mem)
    else
      let est := estimateTokens sanitized
      let m2 := summarizeTextIfNeeded pipeline sanitized est 200
      let est2 := estimateTokens m2
      if ¬ est2 ≤ MAX_TOKENS_PER_REQUEST then
        (.failure "Çok fazla token. Maksimum 1000 token olabilir.".data, mem)
      else
        let rm := processMessage env mem m2
        match rm.1.error with
        | some e => (.failure e, rm.2)
        | none => (.success rm.1, rm.2)

theorem chat_token_failure (pipeline : Option (Chars → Chars)) (env : ChainEnv)
    (mem : Memory) (payloadMessage : Chars)
    (hne : ¬ (pyStrip payloadMessage).isEmpty = true)
    (hlen : validateMessageLength (pyStrip payloadMessage) = true)
    (hblock : sanitizeInput (pyStrip payloadMessage) ≠ filteredSentinel)
    (htok : ¬ estimateTokens (summarizeTextIfNeeded pipeline
        (sanitizeInput (pyStrip payloadMessage))
        (estimateTokens (sanitizeInput (pyStrip payloadMessage))) 200)
      ≤ MAX_TOKENS_PER_REQUEST) :
    chatEndpoint pipeline env mem payloadMessage =
      (.failure "Çok fazla token. Maksimum 1000 token olabilir.".data, mem) := by
  unfold chatEndpoint
  rw [if_neg hne, if_neg (by simp [hlen]), if_neg hblock, if_pos htok]

/-- C6 (amended): when the post-summarization token estimate exceeds the 1000
ceiling, the endpoint returns the fixed token-limit error response without
invoking the classification chain — the outcome is an error, identical for
every chain environment, not a dispatch to a safe default flow. -/
theorem C6_token_guard (pipeline : Option (Chars → Chars)) (env : ChainEnv)
    (mem : Memory) (payloadMessage : Chars)
    (hne : ¬ (pyStrip payloadMessage).isEmpty = true)
    (hlen : validateMessageLength (pyStrip payloadMessage) = true)
    (hblock : sanitizeInput (pyStrip payloadMessage) ≠ filteredSentinel)
    (htok : ¬ estimateTokens (summarizeTextIfNeeded pipeline
        (sanitizeInput (pyStrip payloadMessage))
        (estimateTokens (sanitizeInput (pyStrip payloadMessage))) 200)
      ≤ MAX_TOKENS_PER_REQUEST) :
    chatEndpoint pipeline env mem payloadMessage =
      (.failure "Çok fazla token. Maksimum 1000 token olabilir.".data, mem) :=
  chat_token_failure pipeline env mem payloadMessage hne hlen hblock htok

theorem replicate_a_nospace (n : Nat) : ∀ c ∈ List.replicate n 'a', pyIsSpace c = false :=
  fun c hc => by rw [List.eq_of_mem_replicate hc]; decide

theorem pyStrip_replicate_a (n : Nat) :
    pyStrip (List.replicate n 'a') = List.replicate n 'a' :=
  pyStrip_all_nospace (replicate_a_nospace n)

theorem replicate_a_not_isEmpty (n : Nat) (h : 0 < n) :
    ¬ (List.replicate n 'a').isEmpty = true := by
  intro he
  rw [List.isEmpty_iff] at he
  have := congrArg List.length he
  simp at this
  omega

theorem estimateTokens_replicate_a (n : Nat) :
    estimateTokens (List.replicate n 'a') = n / 4 := by
  unfold estimateTokens
  rw [List.length_replicate]

theorem summarize_witness_eval :
    summarizeTextIfNeeded (some (fun _ => List.replicate 5000 'a'))
      (List.replicate 900 'a') (estimateTokens (List.replicate 900 'a')) 200 =
      List.replicate 5000 'a' := by
  rw [estimateTokens_replicate_a]
  unfold summarizeTextIfNeeded
  rw [if_neg (by norm_num)]
  simp only
  rw [pyStrip_replicate_a 5000]
  rw [if_neg (replicate_a_not_isEmpty 5000 (by omega))]

theorem chat_witness_htok : ¬ estimateTokens (summarizeTextIfNeeded
    (some (fun _ => List.replicate 5000 'a'))
    (sanitizeInput (pyStrip (List.replicate 900 'a')))
    (estimateTokens (sanitizeInput (pyStrip (List.replicate 900 'a')))) 200)
    ≤ MAX_TOKENS_PER_REQUEST := by
  rw [pyStrip_replicate_a 900, sanitizeInput_replicate_a 900 (by omega),
    summarize_witness_eval, estimateTokens_replicate_a]
  norm_num [MAX_TOKENS_PER_REQUEST]

theorem chat_witness_hblock :
    sanitizeInput (pyStrip (List.replicate 900 'a')) ≠ filteredSentinel := by
  rw [pyStrip_replicate_a 900, sanitizeInput_replicate_a 900 (by omega)]
  intro he
  have := congrArg List.length he
  simp [filteredSentinel] at this

theorem chat_witness_hlen :
    validateMessageLength (pyStrip (List.replicate 900 'a')) = true := by
  rw [pyStrip_replicate_a 900]
  unfold validateMessageLength MAX_MESSAGE_LENGTH
  simp

/-- Witness for C6: a 900-character message that the (oracle) summarizer
expands beyond the token ceiling, at a concrete chain environment. -/
theorem C6_token_guard_witness :
    chatEndpoint (some (fun _ => List.replicate 5000 'a')) trivialChainEnv []
        (List.replicate 900 'a') =
      (.failure "Çok fazla token. Maksimum 1000 token olabilir.".data, []) :=
  C6_token_guard (some (fun _ => List.replicate 5000 'a')) trivialChainEnv []
    (List.replicate 900 'a')
    (by rw [pyStrip_replicate_a 900]; exact replicate_a_not_isEmpty 900 (by omega))
    chat_witness_hlen chat_witness_hblock chat_witness_htok

/-- C6 counterexample to the claim as stated: for a message whose token
estimate exceeds the ceiling the endpoint answers with the token-limit error
response — it does not resolve to a safe default flow (the result is an error
for every chain environment, in particular not a successful HELP dispatch). -/
theorem C6_counterexample :
    1000 < estimateTokens (summarizeTextIfNeeded
      (some (fun _ => List.replicate 5000 'a'))
      (sanitizeInput (pyStrip (List.replicate 900 'a')))
      (estimateTokens (sanitizeInput (pyStrip (List.replicate 900 'a')))) 200) ∧
    (chatEndpoint (some (fun _ => List.replicate 5000 'a'))
        { trivialChainEnv with llm := fun _ => "EMOTION".data } []
        (List.replicate 900 'a')).1 =
      ChatResponse.failure "Çok fazla token. Maksimum 1000 token olabilir.".data ∧
    (chatEndpoint (some (fun _ => List.replicate 5000 'a'))
        { trivialChainEnv with llm := fun _ => "EMOTION".data } []
        (List.replicate 900 'a')).1 ≠
      ChatResponse.success
        { help := true, response := some helpMessage, flowType := some "HELP".data } := by
  have hmain := chat_token_failure (some (fun _ => List.replicate 5000 'a'))
    { trivialChainEnv with llm := fun _ => "EMOTION".data } []
    (List.replicate 900 'a')
    (by rw [pyStrip_replicate_a 900]; exact replicate_a_not_isEmpty 900 (by omega))
    chat_witness_hlen chat_witness_hblock chat_witness_htok
  refine ⟨?_, ?_, ?_⟩
  · have h := chat_witness_htok
    unfold MAX_TOKENS_PER_REQUEST at h
    omega
  · rw [hmain]
  · rw [hmain]
    intro he
    exact absurd he (by simp)

/-! ### `emotion_system.py`: JSON values, mood counters, C8 -/

/-- A parsed JSON value (the repository's persisted files and model replies
are handled through Python's `json` library; this is its value domain,
numbers restricted to the integers actually stored). -/
inductive JVal where
  | null
  | bool (b : Bool)
  | num (n : Int)
  | str (s : Chars)
  | arr (xs : List JVal)
  | obj (fields : List (Chars × JVal))

/-- `dict.get(key)` over insertion-ordered fields. -/
def jGet (fields : List (Chars × JVal)) (key : Chars) : Option JVal :=
  (fields.find? (fun kv => kv.1 = key)).map (fun kv => kv.2)

mutual

/-- Python `repr` of a parsed JSON value (used by `str()` on containers). -/
def pyReprJ : JVal → Chars
  | .null => "None".data
  | .bool true => "True".data
  | .bool false => "False".data
  | .num n => (toString n).data
  | .str s => '\'' :: (s ++ ['\''])
  | .arr xs => '[' :: (pyReprList xs ++ [']'])
  | .obj fs => '\x7b' :: (pyReprFields fs ++ ['\x7d'])

def pyReprList : List JVal → Chars
  | [] => []
  | [x] => pyReprJ x
  | x :: y :: rest => pyReprJ x ++ ", ".data ++ pyReprList (y :: rest)

def pyReprFields : List (Chars × JVal) → Chars
  | [] => []
  | [kv] => '\'' :: (kv.1 ++ "': ".data ++ pyReprJ kv.2)
  | kv :: kw :: rest =>
    '\'' :: (kv.1 ++ "': ".data ++ pyReprJ kv.2) ++ ", ".data ++ pyReprFields (kw :: rest)

end

/-- Python `str()` of a parsed JSON value. -/
def pyStr : JVal → Chars
  | .str s => s
  | v => pyReprJ v

/-- A decimal-digit parser for Python `int(str)`. -/
def parseNatDigits (t : Chars) : Option Nat :=
  if t.isEmpty then none
  else if t.all (fun c => c.isDigit) then
    some (t.foldl (fun acc c => acc * 10 + (c.toNat - 48)) 0)
  else none

/-- Python `int(...)` on a JSON value (raises = `none`). -/
def pyInt : JVal → Option Int
  | .num n => some n
  | .bool true => some 1
  | .bool false => some 0
  | .str s =>
    match pyStrip s with
    | '-' :: rest => (parseNatDigits rest).map (fun n => -(n : Int))
    | '+' :: rest => (parseNatDigits rest).map (fun n => (n : Int))
    | t => (parseNatDigits t).map (fun n => (n : Int))
  | _ => none

def allowedMoods : List Chars :=
  ["Mutlu".data, "Üzgün".data, "Öfkeli".data, "Şaşkın".data, "Utangaç".data,
   "Endişeli".data, "Yorgun".data, "Gururlu".data, "Çaresiz".data, "Flörtöz".data]

/-- The `{str(k): int(v) for k, v in data.items()}` comprehension: one failing
`int()` raises out of `_load_mood_counts` (modelled as `none`). -/
def convCounts : List (Chars × JVal) → Option (List (Chars × Int))
  | [] => some []
  | kv :: rest =>
    match pyInt kv.2, convCounts rest with
    | some n, some l => some ((kv.1, n) :: l)
    | _, _ => none

/-- `EmotionChatbot._load_mood_counts`: the counter file as a parsed JSON
value (`none` = missing or unparsable file); any failure or a non-object
yields the empty dict. -/
def loadMoodCounts (file : Option JVal) : List (Chars × Int) :=
  match file with
  | some (.obj fields) => (convCounts fields).getD []
  | _ => []

/-- The `__init__` overlay: start from zeros over the ten known labels, take
persisted values for known keys only. -/
def setIfKnown (acc : List (Chars × Int)) (kv : Chars × Int) : List (Chars × Int) :=
  acc.map (fun e => if e.1 = kv.1 then (e.1, kv.2) else e)

def initCounts (file : Option JVal) : List (Chars × Int) :=
  (loadMoodCounts file).foldl setIfKnown (allowedMoods.map (fun m => (m, (0 : Int))))

/-- `EmotionChatbot._save_mood_counts`: the value written to the counter
file. -/
def countsToJVal (counts : List (Chars × Int)) : JVal :=
  .obj (counts.map (fun kv => (kv.1, .num kv.2)))

theorem setIfKnown_absent (acc : List (Chars × Int)) (kv : Chars × Int)
    (h : ∀ e ∈ acc, e.1 ≠ kv.1) : setIfKnown acc kv = acc := by
  unfold setIfKnown
  rw [show acc.map (fun e => if e.1 = kv.1 then (e.1, kv.2) else e) = acc.map id from
    List.map_congr_left (fun e he => by simp [h e he])]
  exact List.map_id acc

theorem convCounts_append_known (counts : Chars → Int) (junk : List (Chars × JVal))
    (hj : ∀ kv ∈ junk, (pyInt kv.2).isSome) :
    ∃ junkC, convCounts (allowedMoods.map (fun l => (l, JVal.num (counts l))) ++ junk) =
        some (allowedMoods.map (fun l => (l, counts l)) ++ junkC) ∧
      junkC.map (fun e => e.1) = junk.map (fun e => e.1) := by
  have hjunk : ∃ junkC, convCounts junk = some junkC ∧
      junkC.map (fun e => e.1) = junk.map (fun e => e.1) := by
    induction junk with
    | nil => exact ⟨[], rfl, rfl⟩
    | cons kv rest ih =>
      obtain ⟨n, hn⟩ := Option.isSome_iff_exists.mp (hj kv (List.mem_cons_self _ _))
      obtain ⟨restC, hrest, hkeys⟩ := ih (fun e he => hj e (List.mem_cons_of_mem _ he))
      refine ⟨(kv.1, n) :: restC, ?_, ?_⟩
      · unfold convCounts
        rw [hn, hrest]
      · simp [hkeys]
  obtain ⟨junkC, hjc, hkeys⟩ := hjunk
  refine ⟨junkC, ?_, hkeys⟩
  have hmain : ∀ (ls : List Chars),
      convCounts (ls.map (fun l => (l, JVal.num (counts l))) ++ junk) =
        some (ls.map (fun l => (l, counts l)) ++ junkC) := by
    intro ls
    induction ls with
    | nil => simpa using hjc
    | cons l rest ih =>
      simp only [List.map_cons, List.cons_append]
      unfold convCounts
      rw [ih]
      rfl
  exact hmain allowedMoods

theorem foldl_setIfKnown_absent :
    ∀ (js : List (Chars × Int)) (acc : List (Chars × Int)),
      (∀ j ∈ js, ∀ e ∈ acc, e.1 ≠ j.1) → js.foldl setIfKnown acc = acc := by
  intro js
  induction js with
  | nil => intro acc _; rfl
  | cons j rest ih =>
    intro acc h
    rw [List.foldl_cons, setIfKnown_absent acc j (fun e he => h j (List.mem_cons_self _ _) e he)]
    exact ih acc (fun j' hj' e he => h j' (List.mem_cons_of_mem _ hj') e he)

theorem loadMoodCounts_obj (fields : List (Chars × JVal)) :
    loadMoodCounts (some (.obj fields)) = (convCounts fields).getD [] := rfl

theorem setIfKnown_map (ms : List Chars) (g : Chars → Int) (k : Chars) (v : Int) :
    setIfKnown (ms.map (fun l => (l, g l))) (k, v) =
      ms.map (fun l => (l, if l = k then v else g l)) := by
  unfold setIfKnown
  rw [List.map_map]
  apply List.map_congr_left
  intro l _
  by_cases h : l = k <;> simp [h]

theorem foldl_overlay (f : Chars → Int) :
    ∀ (ps : List Chars) (ms : List Chars) (g : Chars → Int),
      (ps.map (fun l => (l, f l))).foldl setIfKnown (ms.map (fun l => (l, g l))) =
        ms.map (fun l => (l, if l ∈ ps then f l else g l)) := by
  intro ps
  induction ps with
  | nil =>
    intro ms g
    simp
  | cons p rest ih =>
    intro ms g
    simp only [List.map_cons, List.foldl_cons]
    rw [setIfKnown_map ms g p (f p)]
    have hstep : ms.map (fun l => (l, if l = p then f p else g l)) =
        ms.map (fun l => (l, (fun x => if x = p then f x else g x) l)) := by
      apply List.map_congr_left
      intro l _
      by_cases h : l = p <;> simp [h]
    rw [hstep, ih ms (fun x => if x = p then f x else g x)]
    apply List.map_congr_left
    intro l _
    by_cases h1 : l ∈ rest
    · simp [h1, List.mem_cons]
    · by_cases h2 : l = p <;> simp [h1, h2, List.mem_cons]

theorem convCounts_nums (f : Chars → Int) :
    ∀ ms : List Chars,
      convCounts (ms.map (fun l => (l, JVal.num (f l)))) = some (ms.map (fun l => (l, f l))) := by
  intro ms
  induction ms with
  | nil => rfl
  | cons m rest ih =>
    simp only [List.map_cons]
    unfold convCounts
    rw [ih]
    rfl

theorem initCounts_saved (counts : Chars → Int) :
    initCounts (some (countsToJVal (allowedMoods.map (fun l => (l, counts l))))) =
      allowedMoods.map (fun l => (l, counts l)) := by
  unfold initCounts countsToJVal
  rw [loadMoodCounts_obj, List.map_map]
  rw [show (allowedMoods.map ((fun kv => (kv.1, JVal.num kv.2)) ∘ fun l => (l, counts l))) =
      allowedMoods.map (fun l => (l, JVal.num (counts l))) from
    List.map_congr_left (fun l _ => rfl)]
  rw [convCounts_nums counts allowedMoods]
  simp only [Option.getD_some]
  rw [show allowedMoods.map (fun m => (m, (0 : Int))) =
      allowedMoods.map (fun l => (l, (fun _ => (0 : Int)) l)) from rfl]
  rw [foldl_overlay counts allowedMoods allowedMoods (fun _ => (0 : Int))]
  apply List.map_congr_left
  intro l hl
  simp [hl]

/-- C8: mood-counter persistence round-trips — saving any mapping of the ten
known labels and re-loading it at startup restores the same mapping — and
unknown keys in a hand-edited counter file are ignored by the load (the
result is still exactly the saved known-label mapping). -/
theorem C8_mood_counters :
    (∀ counts : Chars → Int,
      initCounts (some (countsToJVal (allowedMoods.map (fun l => (l, counts l))))) =
        allowedMoods.map (fun l => (l, counts l))) ∧
    (∀ (counts : Chars → Int) (junk : List (Chars × JVal)),
      (∀ kv ∈ junk, kv.1 ∉ allowedMoods ∧ (pyInt kv.2).isSome = true) →
      initCounts
          (some (.obj (allowedMoods.map (fun l => (l, JVal.num (counts l))) ++ junk))) =
        allowedMoods.map (fun l => (l, counts l))) := by
  constructor
  · exact initCounts_saved
  · intro counts junk hj
    obtain ⟨junkC, hconv, hkeys⟩ :=
      convCounts_append_known counts junk (fun kv hkv => (hj kv hkv).2)
    unfold initCounts
    rw [loadMoodCounts_obj, hconv]
    simp only [Option.getD_some]
    rw [List.foldl_append]
    rw [show allowedMoods.map (fun m => (m, (0 : Int))) =
        allowedMoods.map (fun l => (l, (fun _ => (0 : Int)) l)) from rfl]
    rw [foldl_overlay counts allowedMoods allowedMoods (fun _ => (0 : Int))]
    have hfull : allowedMoods.map (fun l => (l, if l ∈ allowedMoods then counts l else 0)) =
        allowedMoods.map (fun l => (l, counts l)) := by
      apply List.map_congr_left
      intro l hl
      simp [hl]
    rw [hfull]
    apply foldl_setIfKnown_absent
    intro j hjmem e hemem
    have hjkey : j.1 ∈ junk.map (fun kv => kv.1) := by
      rw [← hkeys]
      exact List.mem_map_of_mem _ hjmem
    obtain ⟨kv, hkv, hkveq⟩ := List.mem_map.mp hjkey
    obtain ⟨l, hl, hle⟩ := List.mem_map.mp hemem
    intro he
    apply (hj kv hkv).1
    rw [hkveq, ← he, ← hle]
    exact hl

/-- Witness for the unknown-keys clause of C8 at a concrete hand-edited
file. -/
theorem C8_mood_counters_witness :
    (∀ kv ∈ [(("Foo".data : Chars), JVal.str "3".data)],
      kv.1 ∉ allowedMoods ∧ (pyInt kv.2).isSome = true) ∧
    initCounts
        (some (.obj (allowedMoods.map (fun l => (l, JVal.num ((fun _ => (5 : Int)) l))) ++
          [(("Foo".data : Chars), JVal.str "3".data)]))) =
      allowedMoods.map (fun l => (l, (fun _ => (5 : Int)) l)) :=
  ⟨by decide, C8_mood_counters.2 (fun _ => (5 : Int))
    [(("Foo".data : Chars), JVal.str "3".data)] (by decide)⟩

/-! ### `emotion_system.py`: the chat pipeline (C7) -/

/-- An OpenAI function-call object (`msg.function_call`): its `name` and the
raw `arguments` string (`none` = absent attribute). -/
structure FnCall where
  fcName : Chars
  fcArgs : Option Chars
  deriving DecidableEq

/-- A chat message dict as built by `EmotionChatbot.chat` (`content` and
`function_call` are `None`-able; `funcName` is the `"name"` key of function
messages). -/
structure ChatMsg where
  role : Chars
  content : Option Chars
  functionCall : Option FnCall
  funcName : Option Chars
  deriving DecidableEq

/-- The mutable state of an `EmotionChatbot` plus its two persisted files:
`chatHistoryFile` is `chat_history.txt` as the list of its parsed JSON lines
(every line the program writes is `json.dumps` of an object), and
`moodCounterFile` is `mood_counter.txt` as a parsed JSON value (`none` =
missing/unreadable). -/
structure EmotionState where
  messages : List ChatMsg
  requests : Nat
  lastRequestAt : Option Chars
  emotionCounts : List (Chars × Int)
  chatHistoryFile : List JVal
  moodCounterFile : Option JVal

/-- The external collaborators of `EmotionChatbot.chat`: the two
`chat.completions.create` calls (the first passes the function schema, the
second does not), the `json` library, `random.choice`, the `MOOD_EMOJIS`
table, `str()` on a function-call object, and the two `datetime.now()`
renderings. -/
structure EmotionEnv where
  completeFns : List ChatMsg → ChatMsg
  completePlain : List ChatMsg → ChatMsg
  jsonLoads : Chars → Option JVal
  jsonDumps : JVal → Chars
  renderFnCall : FnCall → Chars
  randomChoice : List Chars → Option Chars
  moodEmojis : Chars → Option (List Chars)
  now : Chars
  todayStr : Chars

def MAX_EMOTION_MESSAGE_LENGTH : Nat := 1000

/-- `_get_emotion_system_prompt` (verbatim). -/
def emotionSystemPromptText : Chars := "
Sen bir duygu sınıflandırma ve yanıt üretme modelisin.
Görevin şunlardır:

1. Kullanıcının mesajındaki duyguyu tahmin et.
2. O duyguya uygun bir ilk cevap yaz.
3. Ardından ilk duygu ile uyumlu bir ikinci duygu seç; gerekirse aynı duyguyu tekrar seçebilirsin.
4. Seçilen ikinci duyguya uygun bir ikinci cevap yaz (ilk yanıtla tutarlı olmalıdır).
5. Çıktıyı Türkçe ver ve her iki yanıt da sadece 1 cümle olmalıdır.
6. Ek olarak, kullanıcının verdiği mesajdan kullanıcının duygu durumunu tek bir etiket ile belirle.
6. Çıktıyı her zaman aşağıdaki JSON formatında ver:

\x7b
  \"kullanici_ruh_hali\": \"...\",
  \"ilk_ruh_hali\": \"...\",
  \"ilk_cevap\": \"...\",
  \"ikinci_ruh_hali\": \"...\",
  \"ikinci_cevap\": \"...\"
\x7d

Seçilebilecek ruh halleri:
Mutlu, Üzgün, Öfkeli, Şaşkın, Utanmış, Endişeli, Gülümseyen, Flörtöz, Sorgulayıcı, Sorgulayıcı, Yorgun

EK KURALLAR (İstatistik Sorguları):
- Sadece kullanıcı AÇIKÇA istatistik/özet isterse sınıflandırma JSON'u üretmek yerine şu fonksiyonu çağır: `get_emotion_stats`.
  - Açıkça istatistik/özet isteme anahtar kelimeleri: \"en çok\", \"istatistik\", \"özet\", \"toplam\", \"kaç kez\", \"kaç kere\", \"en sık\".
  - Normal duygu/sohbet mesajlarında ASLA fonksiyon çağırma.
  - `period` argümanı: İstatistik sorgusunda \"bugün\"/\"günlük\" geçiyorsa \"today\"; aksi halde \"all\".
- Fonksiyonun dönüşünden sonra sadece 1 cümlelik, Türkçe, kısa bir özet yaz ve JSON döndürme. Bu kural YALNIZCA istatistik sorguları için geçerlidir.
".data

/-- One line of the `_messages_to_debug` rendering. -/
def msgDebugLine (env : EmotionEnv) (m : ChatMsg) : Chars :=
  match m.content with
  | some c => m.role ++ ": ".data ++ c
  | none =>
    match m.functionCall with
    | some fc => m.role ++ ": [function_call] ".data ++ env.renderFnCall fc
    | none => m.role ++ ": ".data

def messagesToDebug (env : EmotionEnv) (ms : List ChatMsg) : Chars :=
  joinSep "\n".data (ms.map (msgDebugLine env))

/-- The balanced-object scanner inside `extract_json_object`: characters
remaining, current index, `in_string`, `escape`, `depth`; returns
`end_index`. -/
def scanBalanced : Chars → Nat → Bool → Bool → Int → Option Nat
  | [], _, _, _, _ => none
  | c :: rest, i, inString, escape, depth =>
    if inString then
      if escape then scanBalanced rest (i + 1) true false depth
      else if c = '\\' then scanBalanced rest (i + 1) true true depth
      else if c = '\"' then scanBalanced rest (i + 1) false false depth
      else scanBalanced rest (i + 1) true false depth
    else
      if c = '\"' then scanBalanced rest (i + 1) true false depth
      else if c = '\x7b' then scanBalanced rest (i + 1) false false (depth + 1)
      else if c = '\x7d' then
        if depth - 1 = 0 then some i
        else scanBalanced rest (i + 1) false false (depth - 1)
      else scanBalanced rest (i + 1) false false depth

/-- `extract_json_object` of `EmotionChatbot.chat` (`loads` is the `json`
library). -/
def extractJsonObject (loads : Chars → Option JVal) (text : Chars) : Option JVal :=
  let t := pyStrip (pyReplace (pyReplace text "```json".data []) "```".data [])
  match t.findIdx? (fun c => c = '\x7b') with
  | none => none
  | some start =>
    match scanBalanced (t.drop start) start false false 0 with
    | none => none
    | some endIdx => loads ((t.take (endIdx + 1)).drop start)

/-- Python truthiness of a parsed JSON value. -/
def jFalsy : JVal → Bool
  | .null => true
  | .bool b => !b
  | .num n => n = 0
  | .str s => s.isEmpty
  | .arr xs => xs.isEmpty
  | .obj fs => fs.isEmpty

/-- `if not data:` over `Dict | None`. -/
def pyFalsyJ : Option JVal → Bool
  | none => true
  | some v => jFalsy v

def intToChars (n : Int) : Chars := (toString n).data

/-- `if key in counts: counts[key] += 1` (the `inc` closure, key already
stripped). -/
def incIfKnown (cs : List (Chars × Int)) (key : Chars) : List (Chars × Int) :=
  if cs.any (fun e => e.1 = key) then
    cs.map (fun e => if e.1 = key then (e.1, e.2 + 1) else e)
  else cs

/-- The `period == "today"` scan of `get_emotion_stats` over the parsed
chat-history lines; a non-object line aborts the whole `try` and the counts
accumulated so far are kept. -/
def todayCountsLoop (env : EmotionEnv) : List JVal → List (Chars × Int) → List (Chars × Int)
  | [], cs => cs
  | line :: rest, cs =>
    match line with
    | .obj fields =>
      let ts := pyStr ((jGet fields "timestamp".data).getD (.str []))
      if env.todayStr.isPrefixOf ts then
        let resp := pyStr ((jGet fields "response".data).getD (.str []))
        match env.jsonLoads resp with
        | some (.obj dfields) =>
          let um := pyStrip (pyStr ((jGet dfields "kullanici_ruh_hali".data).getD (.str [])))
          let m1 := pyStrip (pyStr ((jGet dfields "ilk_ruh_hali".data).getD (.str [])))
          let m2 := pyStrip (pyStr ((jGet dfields "ikinci_ruh_hali".data).getD (.str [])))
          todayCountsLoop env rest (incIfKnown (incIfKnown (incIfKnown cs um) m1) m2)
        | _ => todayCountsLoop env rest cs
      else todayCountsLoop env rest cs
    | _ => cs

/-- The `", ".join(...)` summary over counts (`"Henüz duygu kaydı yok"` when
nothing is positive). -/
def emotionSummary (counts : List (Chars × Int)) : Chars :=
  let parts := (counts.filter (fun e => 0 < e.2)).map
    (fun e => intToChars e.2 ++ " kez ".data ++ pyLower e.1)
  if parts.isEmpty then "Henüz duygu kaydı yok".data else joinSep ", ".data parts

/-- `EmotionChatbot.get_emotion_stats` (the returned dict as a JSON value;
`period` is the raw argument, `none` = Python `None`). -/
def getEmotionStats (env : EmotionEnv) (st : EmotionState) (period : Option JVal) : JVal :=
  let isToday : Bool := match period with
    | some (.str s) => s = "today".data
    | _ => false
  let counts :=
    if isToday then
      todayCountsLoop env st.chatHistoryFile (allowedMoods.map (fun m => (m, (0 : Int))))
    else st.emotionCounts
  .obj [("counts".data, countsToJVal counts),
        ("summary".data, .str (emotionSummary counts)),
        ("period".data, match period with
          | some v => if jFalsy v then .str "all".data else v
          | none => .str "all".data)]

/-- The `normalize_mood` closure (the dict lookup falls back to the original
argument). -/
def normalizeMood (mood : Chars) : Chars :=
  let n := pyLower (pyStrip mood)
  if n = "utangaç".data then "Utanmış".data
  else if n = "utanmış".data then "Utanmış".data
  else if n = "gülümseyen".data then "Gülümseyen".data
  else if n = "mutlu".data then "Mutlu".data
  else if n = "üzgün".data then "Üzgün".data
  else if n = "öfkeli".data then "Öfkeli".data
  else if n = "şaşkın".data then "Şaşkın".data
  else if n = "endişeli".data then "Endişeli".data
  else if n = "flörtöz".data then "Flörtöz".data
  else if n = "sorgulayıcı".data then "Sorgulayıcı".data
  else if n = "yorgun".data then "Yorgun".data
  else mood

/-- The `pick_emoji` closure: options must be truthy; `random.choice` failure
is already `none` in the oracle. -/
def pickEmoji (env : EmotionEnv) (mood : Chars) : Option Chars :=
  match env.moodEmojis (normalizeMood mood) with
  | some (o :: os) => env.randomChoice (o :: os)
  | _ => none

/-- `_append_chat_history`: the JSON object written as one line of
`chat_history.txt`. -/
def historyLine (env : EmotionEnv) (userMessage responseText : Chars) : JVal :=
  .obj [("timestamp".data, .str env.now),
        ("user".data, .str userMessage),
        ("response".data, .str responseText)]

/-- The `messages_payload` construction: system prompt, last-6 history tail,
new user message. -/
def emotionPayload (msgs : List ChatMsg) (m : Chars) : List ChatMsg :=
  let tail := if 6 < msgs.length then msgs.drop (msgs.length - 6) else msgs
  ⟨"system".data, some (pyStrip emotionSystemPromptText), none, none⟩ ::
    (tail ++ [⟨"user".data, some m, none, none⟩])

/-- The result dict of `chat` (`none` fields = keys absent/Python `None`). -/
structure EmotionChatOut where
  response : Chars
  firstEmoji : Option Chars
  secondEmoji : Option Chars
  requestDebug : Option Chars
  deriving DecidableEq

def requiredEmotionKeys : List Chars :=
  ["kullanici_ruh_hali".data, "ilk_ruh_hali".data, "ilk_cevap".data,
   "ikinci_ruh_hali".data, "ikinci_cevap".data]

/-- The JSON-classification tail of `chat` (everything after the
function-call branch declines). `none` as the second component is the
uncaught `TypeError` of `k not in data` on a truthy non-dict (state changes
made before the raise persist). -/
def emotionContentBranch (env : EmotionEnv) (st1 : EmotionState) (requestDebug : Chars)
    (m content : Chars) : EmotionState × Option EmotionChatOut :=
  let data := extractJsonObject env.jsonLoads content
  if pyFalsyJ data then
    ({ st1 with
        chatHistoryFile := st1.chatHistoryFile ++ [historyLine env m content],
        messages := st1.messages ++
          [⟨"user".data, some m, none, none⟩, ⟨"assistant".data, some content, none, none⟩] },
     some ⟨content, none, none, some requestDebug⟩)
  else
    match data with
    | some (.obj dfields) =>
      if ¬ (requiredEmotionKeys.all (fun k => dfields.any (fun kv => kv.1 = k))) then
        ({ st1 with chatHistoryFile := st1.chatHistoryFile ++ [historyLine env m content] },
         some ⟨content, none, none, none⟩)
      else
        let umRaw := pyStr ((jGet dfields "kullanici_ruh_hali".data).getD (.str []))
        let m1Raw := pyStr ((jGet dfields "ilk_ruh_hali".data).getD (.str []))
        let m2Raw := pyStr ((jGet dfields "ikinci_ruh_hali".data).getD (.str []))
        let counts3 :=
          incIfKnown (incIfKnown (incIfKnown st1.emotionCounts (pyStrip umRaw))
            (pyStrip m1Raw)) (pyStrip m2Raw)
        let responseText := env.jsonDumps (.obj dfields)
        ({ st1 with
            emotionCounts := counts3,
            moodCounterFile := some (countsToJVal counts3),
            chatHistoryFile := st1.chatHistoryFile ++ [historyLine env m responseText],
            messages := st1.messages ++
              [⟨"user".data, some m, none, none⟩,
               ⟨"assistant".data, some responseText, none, none⟩] },
         some ⟨responseText, pickEmoji env m1Raw, pickEmoji env m2Raw, some requestDebug⟩)
    | _ => (st1, none)

/-- The `get_emotion_stats` function-call branch of `chat`. -/
def emotionFnBranch (env : EmotionEnv) (st1 : EmotionState)
    (payload : List ChatMsg) (requestDebug m : Chars) (fc : FnCall) :
    EmotionState × Option EmotionChatOut :=
  let periodArg : Option JVal :=
    match fc.fcArgs with
    | some a =>
      if a.isEmpty then none
      else
        match env.jsonLoads a with
        | some (.obj fields) =>
          match jGet fields "period".data with
          | some .null => none
          | v => v
        | _ => none
    | none => none
  let result := getEmotionStats env st1 periodArg
  let asstMsg : ChatMsg := ⟨"assistant".data, none, some fc, none⟩
  let fnMsg : ChatMsg := ⟨"function".data, some (env.jsonDumps result), none, some fc.fcName⟩
  let payload2 := payload ++ [asstMsg, fnMsg]
  let text := (env.completePlain payload2).content.getD []
  ({ st1 with
      messages := st1.messages ++ [asstMsg, fnMsg] ++
        [⟨"user".data, some m, none, none⟩, ⟨"assistant".data, some text, none, none⟩],
      chatHistoryFile := st1.chatHistoryFile ++ [historyLine env m text] },
   some ⟨text, none, none, some requestDebug⟩)

/-- `EmotionChatbot.chat`. -/
def emotionChat (env : EmotionEnv) (st : EmotionState) (userMessage : Chars) :
    EmotionState × Option EmotionChatOut :=
  if userMessage.isEmpty then
    (st, some ⟨"Mesaj boş olamaz".data, none, none, none⟩)
  else if ¬ (userMessage.length ≤ MAX_EMOTION_MESSAGE_LENGTH) then
    (st, some ⟨"Mesaj çok uzun. Maksimum 1000 karakter olabilir.".data, none, none, none⟩)
  else
    let m := sanitizeWith DANGEROUS_PATTERNS8 filteredSentinel userMessage
    if m = filteredSentinel then
      (st, some ⟨"Güvenlik nedeniyle mesaj filtrelendi".data, none, none, none⟩)
    else
      let st1 := { st with requests := st.requests + 1, lastRequestAt := some env.now }
      let payload := emotionPayload st.messages m
      let requestDebug := messagesToDebug env payload
      let msg := env.completeFns payload
      match msg.functionCall with
      | some fc =>
        if fc.fcName = "get_emotion_stats".data then
          emotionFnBranch env st1 payload requestDebug m fc
        else emotionContentBranch env st1 requestDebug m (msg.content.getD [])
      | none => emotionContentBranch env st1 requestDebug m (msg.content.getD [])

/-- C7: when the model reply carries no function call and no extractable
balanced JSON object, `chat` returns the raw model text verbatim, appends
the exchange to the chat-history log and to the in-memory history, and
leaves the mood counters and the counter file untouched (no save on this
path) — only the request stats advance. -/
theorem C7_raw_fallback (env : EmotionEnv) (st : EmotionState) (userMessage m content : Chars)
    (hm : m = sanitizeWith DANGEROUS_PATTERNS8 filteredSentinel userMessage)
    (hc : content = (env.completeFns (emotionPayload st.messages m)).content.getD [])
    (h1 : userMessage.isEmpty = false)
    (h2 : userMessage.length ≤ MAX_EMOTION_MESSAGE_LENGTH)
    (h3 : m ≠ filteredSentinel)
    (h4 : ∀ fc, (env.completeFns (emotionPayload st.messages m)).functionCall = some fc →
      fc.fcName ≠ "get_emotion_stats".data)
    (h5 : extractJsonObject env.jsonLoads content = none) :
    emotionChat env st userMessage =
      ({ st with
          requests := st.requests + 1,
          lastRequestAt := some env.now,
          messages := st.messages ++
            [⟨"user".data, some m, none, none⟩, ⟨"assistant".data, some content, none, none⟩],
          chatHistoryFile := st.chatHistoryFile ++ [historyLine env m content] },
       some ⟨content, none, none, some (messagesToDebug env (emotionPayload st.messages m))⟩) := by
  subst hc
  subst hm
  unfold emotionChat
  rw [h1]
  simp only [Bool.false_eq_true, if_false]
  rw [if_neg (fun hcon => hcon h2)]
  rw [if_neg h3]
  cases hfc : (env.completeFns (emotionPayload st.messages
      (sanitizeWith DANGEROUS_PATTERNS8 filteredSentinel userMessage))).functionCall with
  | none =>
    simp only [hfc]
    unfold emotionContentBranch
    rw [h5]
    simp [pyFalsyJ]
  | some fc =>
    have hne := h4 fc hfc
    simp only [hfc]
    rw [if_neg hne]
    unfold emotionContentBranch
    rw [h5]
    simp [pyFalsyJ]

/-- A concrete environment for exercising the raw-fallback path: the model
always answers the plain (non-JSON) text `hello` and `json.loads` always
fails. -/
def envC7 : EmotionEnv :=
  ⟨fun _ => ⟨"assistant".data, some "hello".data, none, none⟩,
   fun _ => ⟨"assistant".data, none, none, none⟩,
   fun _ => none, fun _ => [], fun _ => [], fun _ => none, fun _ => none,
   "2024-01-01 00:00:00".data, "2024-01-01".data⟩

/-- A fresh chatbot state. -/
def stC7 : EmotionState :=
  ⟨[], 0, none, allowedMoods.map (fun m => (m, (0 : Int))), [], none⟩

/-- C7 at the concrete message `selam` against `envC7`/`stC7`. -/
theorem C7_raw_fallback_witness :
    emotionChat envC7 stC7 "selam".data =
      ({ stC7 with
          requests := stC7.requests + 1,
          lastRequestAt := some envC7.now,
          messages := stC7.messages ++
            [⟨"user".data, some "selam".data, none, none⟩,
             ⟨"assistant".data, some "hello".data, none, none⟩],
          chatHistoryFile := stC7.chatHistoryFile ++
            [historyLine envC7 "selam".data "hello".data] },
       some ⟨"hello".data, none, none,
         some (messagesToDebug envC7 (emotionPayload stC7.messages "selam".data))⟩) :=
  C7_raw_fallback envC7 stC7 "selam".data "selam".data "hello".data
    (by decide) rfl (by decide) (by decide) (by decide)
    (by intro fc h; exact Option.noConfusion h) rfl

/-- C8 counterexample: a hand-edited counter file whose unknown key holds a
non-integer value is not merely ignored — `int(v)` raises inside
`_load_mood_counts`, the whole load falls back to the empty dict, and every
saved known-label count (here `Mutlu = 5`) is silently reset to zero. -/
theorem C8_counterexample :
    initCounts (some (.obj [("Mutlu".data, JVal.num 5),
        ("Foo".data, JVal.str "abc".data)])) =
      allowedMoods.map (fun m => (m, (0 : Int))) ∧
    initCounts (some (.obj [("Mutlu".data, JVal.num 5),
        ("Foo".data, JVal.str "abc".data)])) ≠
      initCounts (some (.obj [("Mutlu".data, JVal.num 5)])) := by
  decide

/-! ### `statistic_system.py` (C9) -/

/-- `StatisticSystem._normalize_emotion`. -/
def normalizeEmotion (nm : Chars) : Option Chars :=
  if nm.isEmpty then none
  else allowedMoods.find? (fun m => pyLower m = pyLower (pyStrip nm))

/-- The optional `(?:,\s*period\s*=\s*"(today|all)")?` group of the first
statistics regex: the captured alternative and the remaining input. The
ordered alternation tries `today` before `all`; each must be followed by the
closing quote, and neither literal is a prefix of text accepted by the
other, so first-match is the backtracking result. -/
def eatPeriodGroup (t : Chars) : Option (Chars × Chars) :=
  (eatLit ",".data t).bind fun a1 =>
  (eatLit "period".data (a1.dropWhile pyIsSpace)).bind fun a3 =>
  (eatLit "=".data (a3.dropWhile pyIsSpace)).bind fun a5 =>
  (eatLit "\"".data (a5.dropWhile pyIsSpace)).bind fun a7 =>
  match (eatLit "today".data a7).bind (fun b => eatLit "\"".data b) with
  | some b2 => some ("today".data, b2)
  | none =>
    ((eatLit "all".data a7).bind (fun c => eatLit "\"".data c)).map
      (fun c2 => ("all".data, c2))

/-- The optional `(?:,\s*emotion\s*=\s*"([^"]+)")?` group of the second
statistics regex. -/
def eatEmotionGroup (t : Chars) : Option (Chars × Chars) :=
  (eatLit ",".data t).bind fun a1 =>
  (eatLit "emotion".data (a1.dropWhile pyIsSpace)).bind fun a3 =>
  (eatLit "=".data (a3.dropWhile pyIsSpace)).bind fun a5 =>
  (eatLit "\"".data (a5.dropWhile pyIsSpace)).bind fun a7 =>
  let g := a7.takeWhile (fun c => c ≠ '\"')
  if g.isEmpty then none
  else (eatLit "\"".data (a7.drop g.length)).map (fun r => (g, r))

/-- Match of the first statistics regex
`get_emotion_stats\(\s*emotion\s*=\s*"([^"]+)"\s*(?:,\s*period\s*=\s*"(today|all)")?\s*\)`
anchored at the start of `t`: the two captures. Every `\s*` precedes a
non-space literal (maximal munch is exact), the greedy `([^"]+)` ends at
the first quote, and when the optional group matches but `\s*\)` then
fails, the skip-alternative faces the group's leading comma and fails too,
so this deterministic reading equals the backtracking semantics. -/
def matchM1At (t : Chars) : Option (Chars × Option Chars) :=
  (eatLit "get_emotion_stats(".data t).bind fun r1 =>
  (eatLit "emotion".data (r1.dropWhile pyIsSpace)).bind fun r3 =>
  (eatLit "=".data (r3.dropWhile pyIsSpace)).bind fun r5 =>
  (eatLit "\"".data (r5.dropWhile pyIsSpace)).bind fun r7 =>
  let g1 := r7.takeWhile (fun c => c ≠ '\"')
  if g1.isEmpty then none
  else
    (eatLit "\"".data (r7.drop g1.length)).bind fun r9 =>
    let r10 := r9.dropWhile pyIsSpace
    match eatPeriodGroup r10 with
    | some (g2, r11) =>
      (eatLit ")".data (r11.dropWhile pyIsSpace)).map (fun _ => (g1, some g2))
    | none =>
      (eatLit ")".data (r10.dropWhile pyIsSpace)).map (fun _ => (g1, (none : Option Chars)))

/-- Match of the second statistics regex
`get_emotion_stats\(\s*period\s*=\s*"(today|all)"\s*(?:,\s*emotion\s*=\s*"([^"]+)")?\s*\)`
anchored at the start of `t`. -/
def matchM2At (t : Chars) : Option (Chars × Option Chars) :=
  (eatLit "get_emotion_stats(".data t).bind fun r1 =>
  (eatLit "period".data (r1.dropWhile pyIsSpace)).bind fun r3 =>
  (eatLit "=".data (r3.dropWhile pyIsSpace)).bind fun r5 =>
  (eatLit "\"".data (r5.dropWhile pyIsSpace)).bind fun r7 =>
  (match (eatLit "today".data r7).bind (fun b => eatLit "\"".data b) with
   | some b2 => some ("today".data, b2)
   | none =>
     ((eatLit "all".data r7).bind (fun c => eatLit "\"".data c)).map
       (fun c2 => ("all".data, c2))).bind fun g1r =>
  let r10 := g1r.2.dropWhile pyIsSpace
  match eatEmotionGroup r10 with
  | some (g2, r11) =>
    (eatLit ")".data (r11.dropWhile pyIsSpace)).map (fun _ => (g1r.1, some g2))
  | none =>
    (eatLit ")".data (r10.dropWhile pyIsSpace)).map (fun _ => (g1r.1, (none : Option Chars)))

/-- `re.search` = the leftmost position where the anchored match succeeds. -/
def searchM1 (t : Chars) : Option (Chars × Option Chars) := t.tails.findSome? matchM1At

def searchM2 (t : Chars) : Option (Chars × Option Chars) := t.tails.findSome? matchM2At

/-- `StatisticSystem._detect_period_and_emotion`. -/
def detectPeriodAndEmotion (userMessage : Chars) : Chars × Option Chars :=
  let t := pyLower userMessage
  let period0 := if ["bugün".data, "today".data, "günlük".data].any (fun k => infixBool k t)
    then "today".data else "all".data
  let det0 := allowedMoods.find? (fun m => infixBool (pyLower m) t)
  match searchM1 t with
  | some (g1, g2) =>
    (match g2 with | some p => p | none => period0,
     match normalizeEmotion g1 with | some e => some e | none => det0)
  | none =>
    match searchM2 t with
    | some (g1, g2) =>
      (g1,
       match g2 with
       | some e2 =>
         if e2.isEmpty then det0
         else match normalizeEmotion e2 with | some e => some e | none => det0
       | none => det0)
    | none => (period0, det0)

/-- The two persisted files and the collaborators of `StatisticSystem`
(`chatHistoryFile` as the list of parsed JSON lines, as for the emotion
system). -/
structure StatsEnv where
  counterFile : Option JVal
  chatHistoryFile : List JVal
  jsonLoads : Chars → Option JVal
  todayStr : Chars

/-- `StatisticSystem._read_persisted_counts`: the raw (non-overlaid) dict on
success, the all-zero dict on any failure. -/
def readPersistedCounts (file : Option JVal) : List (Chars × Int) :=
  match file with
  | some (.obj fields) => (convCounts fields).getD (allowedMoods.map (fun m => (m, (0 : Int))))
  | _ => allowedMoods.map (fun m => (m, (0 : Int)))

/-- The today-scan of `_read_today_counts_from_chat_history`; a non-object
line raises out of the loop and the counts accumulated so far are kept. -/
def statTodayLoop (loads : Chars → Option JVal) (today : Chars) :
    List JVal → List (Chars × Int) → List (Chars × Int)
  | [], cs => cs
  | line :: rest, cs =>
    match line with
    | .obj fields =>
      let ts := pyStr ((jGet fields "timestamp".data).getD (.str []))
      if today.isPrefixOf ts then
        let resp := pyStr ((jGet fields "response".data).getD (.str []))
        match loads resp with
        | some (.obj dfields) =>
          let v1 := pyStrip (pyStr ((jGet dfields "kullanici_ruh_hali".data).getD (.str [])))
          let v2 := pyStrip (pyStr ((jGet dfields "ilk_ruh_hali".data).getD (.str [])))
          let v3 := pyStrip (pyStr ((jGet dfields "ikinci_ruh_hali".data).getD (.str [])))
          statTodayLoop loads today rest (incIfKnown (incIfKnown (incIfKnown cs v1) v2) v3)
        | _ => statTodayLoop loads today rest cs
      else statTodayLoop loads today rest cs
    | _ => cs

def readTodayCounts (env : StatsEnv) : List (Chars × Int) :=
  statTodayLoop env.jsonLoads env.todayStr env.chatHistoryFile
    (allowedMoods.map (fun m => (m, (0 : Int))))

/-- The dict returned by `compute_stats` (`emotionField` = its optional
`"emotion"` key). -/
structure StatsResult where
  counts : List (Chars × Int)
  summary : Chars
  period : Chars
  emotionField : Option Chars
  deriving DecidableEq

/-- `StatisticSystem.compute_stats`. -/
def computeStats (env : StatsEnv) (period : Chars) (emotion : Option Chars) : StatsResult :=
  let periodNorm0 := if period.isEmpty then "all".data else pyLower period
  let periodNorm := if periodNorm0 = "all".data ∨ periodNorm0 = "today".data
    then periodNorm0 else "all".data
  let counts := if periodNorm = "today".data then readTodayCounts env
    else readPersistedCounts env.counterFile
  match (match emotion with | some e => normalizeEmotion e | none => none) with
  | some emo =>
    ⟨counts,
     emo ++ " duygu ".data ++
       intToChars (((counts.find? (fun kv => kv.1 = emo)).map (fun kv => kv.2)).getD 0) ++
       " kez kaydedildi".data,
     periodNorm, some emo⟩
  | none =>
    let parts := (counts.filter (fun kv => 0 < kv.2)).map
      (fun kv => intToChars kv.2 ++ " kez ".data ++ pyLower kv.1)
    ⟨counts,
     if parts.isEmpty then "Henüz duygu kaydı yok".data else joinSep ", ".data parts,
     periodNorm, none⟩

/-- `StatisticSystem.answer` (its `response` equals the summary of the
computed result). -/
def statsAnswer (env : StatsEnv) (msg : Chars) : StatsResult :=
  computeStats env (detectPeriodAndEmotion msg).1 (detectPeriodAndEmotion msg).2

theorem normalize_self : ∀ emo ∈ allowedMoods, normalizeEmotion emo = some emo := by
  decide

/-- C9 (amended): when neither statistics regex matches the lowercased
message, the period is `today` exactly when the message mentions
`bugün`/`today`/`günlük` and the mood filter is the first known label (in
list order) occurring in it; a present filter yields the one-clause
single-mood sentence, an absent one the comma-joined positive-count clauses
or the fixed no-records sentence. (A regex match overrides both detections
— see the counterexample.) -/
theorem C9_stats_engine (env : StatsEnv) (msg : Chars)
    (hm1 : searchM1 (pyLower msg) = none)
    (hm2 : searchM2 (pyLower msg) = none) :
    (detectPeriodAndEmotion msg).1 =
      (if ["bugün".data, "today".data, "günlük".data].any
          (fun k => infixBool k (pyLower msg))
       then "today".data else "all".data) ∧
    (detectPeriodAndEmotion msg).2 =
      allowedMoods.find? (fun m => infixBool (pyLower m) (pyLower msg)) ∧
    (∀ emo, (detectPeriodAndEmotion msg).2 = some emo →
      (statsAnswer env msg).summary =
        emo ++ " duygu ".data ++
          intToChars ((((statsAnswer env msg).counts.find? (fun kv => kv.1 = emo)).map
            (fun kv => kv.2)).getD 0) ++ " kez kaydedildi".data) ∧
    ((detectPeriodAndEmotion msg).2 = none →
      (statsAnswer env msg).summary =
        (if (((statsAnswer env msg).counts.filter (fun kv => 0 < kv.2)).map
            (fun kv => intToChars kv.2 ++ " kez ".data ++ pyLower kv.1)).isEmpty
         then "Henüz duygu kaydı yok".data
         else joinSep ", ".data
           (((statsAnswer env msg).counts.filter (fun kv => 0 < kv.2)).map
             (fun kv => intToChars kv.2 ++ " kez ".data ++ pyLower kv.1)))) := by
  have hd : detectPeriodAndEmotion msg =
      (if ["bugün".data, "today".data, "günlük".data].any
          (fun k => infixBool k (pyLower msg))
       then "today".data else "all".data,
       allowedMoods.find? (fun m => infixBool (pyLower m) (pyLower msg))) := by
    simp only [detectPeriodAndEmotion]
    rw [hm1, hm2]
  refine ⟨by rw [hd], by rw [hd], ?_, ?_⟩
  · intro emo hemo
    have hmem : emo ∈ allowedMoods := by
      rw [hd] at hemo
      simp only at hemo
      exact List.mem_of_find?_eq_some hemo
    unfold statsAnswer computeStats
    rw [hemo]
    simp only [normalize_self emo hmem]
  · intro hemo
    unfold statsAnswer computeStats
    rw [hemo]

/-- C9 at the concrete message `bugün nasılsın` over empty data files: the
period keyword fires, no mood filter is found, and the answer is the fixed
no-records sentence. -/
theorem C9_stats_engine_witness :
    (detectPeriodAndEmotion "bugün nasılsın".data).1 = "today".data ∧
    (detectPeriodAndEmotion "bugün nasılsın".data).2 = none ∧
    (statsAnswer ⟨none, [], fun _ => none, "2024-01-01".data⟩ "bugün nasılsın".data).summary =
      "Henüz duygu kaydı yok".data := by
  have h := C9_stats_engine ⟨none, [], fun _ => none, "2024-01-01".data⟩
    "bugün nasılsın".data (by decide) (by decide)
  refine ⟨?_, ?_, ?_⟩
  · rw [h.1]
    decide
  · rw [h.2.1]
    decide
  · have h4 := h.2.2.2 (by rw [h.2.1]; decide)
    rw [h4]
    decide

/-- C9 counterexample: the message
`bugün get_emotion_stats(emotion="mutlu", period="all")` contains the
period keyword `bugün`, yet the first statistics regex matches and its
`period="all"` capture overrides the keyword detection — the period is not
`today`, refuting the spec's `exactly when`. -/
theorem C9_counterexample :
    infixBool "bugün".data
      (pyLower "bugün get_emotion_stats(emotion=\"mutlu\", period=\"all\")".data) = true ∧
    (detectPeriodAndEmotion
      "bugün get_emotion_stats(emotion=\"mutlu\", period=\"all\")".data).1 = "all".data := by
  decide
